import Mathlib

/-!
# libartnet: network layer (`src/artnet/network.c`) and byte conversions (`src/artnet/misc.c`)

A shallow embedding of the transport code of libartnet, and of the two byte
conversions of `misc.c`, with theorems about them.

Conventions of the embedding

* C `int` values are `Int`; a conversion from `ssize_t` to `int` is the explicit
  wrap `to_int32`.
* IPv4 addresses (`struct in_addr`, `s_addr`) are `Nat`, the 32 bit word as the
  host reads it; byte buffers are `List Nat`.
* A `NULL`-terminated singly linked list (`iface_t`, `struct ifaddrs`) is a
  `List`, head first; `NULL` is `[]`.
* Operating system primitives and routines defined outside `network.c` are fields
  of an environment record: each is a function of the arguments of the call.
  The calls a function makes are logged, in order, in a list of `event`s.
* A run that dereferences `NULL`, or writes outside an object, has no result
  (`none`); so has a run of a loop
  that the bound given for it (a list of answers, a number of steps) does not end.
* Diagnostic output (`printf` in verbose mode, the message buffer written by
  `artnet_error`) is not part of the model.
-/

namespace Artnet

/-! ## Constants -/

/-- Modelled from the spec: status codes of the public header `artnet.h`, which is
not among the sources. `Ok` is zero (`network.c` returns a literal `0` for success
and tests `if (ret)` for failure); the error kinds are distinct negative values. -/
def ARTNET_EOK : Int := 0

/-- Modelled from the spec: `NetworkError` of the public header `artnet.h`. -/
def ARTNET_ENET : Int := -1

/-- Modelled from the spec: `MemoryError` of the public header `artnet.h`. -/
def ARTNET_EMEM : Int := -2

/-- Modelled from the spec: `ArgumentError` of the public header `artnet.h`. -/
def ARTNET_EARG : Int := -3

/-- Modelled from the spec: `ActionNotPermitted` of the public header `artnet.h`. -/
def ARTNET_EACTION : Int := -5

/-- Modelled from the spec: the distinguished non-error status `NoData` of
`private.h`, which is not among the sources. -/
def RECV_NO_DATA : Int := 1

/-- Modelled from the spec: `TRUE` of `private.h`. -/
def TRUE : Int := 1

/-- Modelled from the spec: the hardware address is 6 bytes wide
(`ARTNET_MAC_SIZE` of `artnet.h`). -/
def ARTNET_MAC_SIZE : Nat := 6

/-- Constant `unsigned long LOOPBACK_IP = 0x7F000001;` -/
def LOOPBACK_IP : Nat := 0x7F000001

/-- Constant `enum { IFNAME_SIZE = 32 };` -/
def IFNAME_SIZE : Nat := 32

/-- Constant `EINTR` of `<errno.h>`. -/
def EINTR : Int := 4

/-- Constant `FD_SETSIZE` of `<sys/select.h>`: the number of descriptors an `fd_set`
holds. -/
def FD_SETSIZE : Int := 1024

/-- Modelled from the spec: the node mode of `private.h` (`node_status_t`); sends
are permitted only in `ARTNET_ON`. -/
inductive node_status_t where
  | ARTNET_OFF
  | ARTNET_STANDBY
  | ARTNET_ON
deriving DecidableEq, Repr

/-- Modelled from the spec: the report codes of `artnet.h`/`private.h`
(`artnet_node_report_code`), an enumeration: the "UDP failure" status and the
"short write" status are two of its enumerators. -/
inductive artnet_node_report_code where
  | ARTNET_RCDEBUG
  | ARTNET_RCPOWEROK
  | ARTNET_RCPOWERFAIL
  | ARTNET_RCSOCKETWR1
  | ARTNET_RCPARSEFAIL
  | ARTNET_RCUDPFAIL
deriving DecidableEq, Repr

export node_status_t (ARTNET_OFF ARTNET_STANDBY ARTNET_ON)
export artnet_node_report_code (ARTNET_RCDEBUG ARTNET_RCPOWEROK ARTNET_RCPOWERFAIL
  ARTNET_RCSOCKETWR1 ARTNET_RCPARSEFAIL ARTNET_RCUDPFAIL)

/-! ## Machine arithmetic -/

/-- Conversion of an integer to a 32 bit C `int` (two's complement wrap). -/
def to_int32 (x : Int) : Int := (x + 2147483648) % 4294967296 - 2147483648

/-- Conversion of a C `int` to `unsigned int` (modulo 2^32). -/
def to_uint32 (x : Int) : Int := x % 4294967296

/-- Reversal of the four bytes of a 32 bit word. -/
def bswap32 (x : Nat) : Nat :=
  (x % 256) * 16777216 + (x / 256 % 256) * 65536 + (x / 65536 % 256) * 256
    + (x / 16777216 % 256)

/-- Function `ntohl`: network (big endian) to host order; `little_endian` is the byte order
of the host. -/
def ntohl (little_endian : Bool) (x : Nat) : Nat :=
  if little_endian then bswap32 x else x

/-- A byte array of fixed size, `uint8_t x[n]`. -/
abbrev bytes_t (n : Nat) := { l : List Nat // l.length = n }

/-- Function `memcpy(dst, src, n)` on byte lists: the first `n` bytes of `src` replace the
first `n` bytes of `dst`. -/
def memcpy (dst src : List Nat) (n : Nat) : List Nat := src.take n ++ dst.drop n

/-- Function `memcpy(dst, src, ARTNET_MAC_SIZE)` into a hardware address from an array of at
least that size. -/
def memcpy_mac {m : Nat} (dst : bytes_t ARTNET_MAC_SIZE) (src : bytes_t m)
    (h : ARTNET_MAC_SIZE ≤ m) : bytes_t ARTNET_MAC_SIZE :=
  ⟨memcpy dst.1 src.1 ARTNET_MAC_SIZE, by
    have h1 := dst.2
    have h2 := src.2
    simp only [memcpy, List.length_append, List.length_take, List.length_drop]
    omega⟩

/-! ## Data model (`private.h`, as far as `network.c` uses it) -/

/-- Type `node_state_t`: the fields `network.c` reads or writes. -/
structure node_state_t where
  verbose : Bool
  mode : node_status_t
  report_code : artnet_node_report_code
  ip_addr : Nat
  bcast_addr : Nat
  hw_addr : bytes_t ARTNET_MAC_SIZE
deriving DecidableEq, Repr

/-- Type `callback_t`: a handler (function pointer, `NULL` is `none`) and its context. -/
structure callback_t where
  fh : Option Nat
  data : Nat
deriving DecidableEq, Repr

/-- Type `node_peering_t`: `peer` is a pointer to a node (`NULL` is `none`). -/
structure node_peering_t where
  peer : Option Nat
  master : Int
deriving DecidableEq, Repr

/-- Type `artnet_node_t` (`struct artnet_node_s`). -/
structure artnet_node_t where
  sd : Int
  state : node_state_t
  send : callback_t
  peering : node_peering_t
deriving DecidableEq, Repr

/-- Type `artnet_packet_t`. -/
structure artnet_packet_t where
  length : Int
  from_ : Nat
  to_ : Nat
  type : Nat
  data : List Nat
deriving DecidableEq, Repr

/-- Calls made by the code, in the order they are made. `select` records the value
`p->length` holds when the call is made. -/
inductive event where
  | sendto (sd : Int) (data : List Nat) (len : Int) (dst : Nat)
  | send_fh (fh : Nat) (data : Nat)
  | select (maxfdp1 : Int) (tv_sec : Int) (p_length : Int)
  | recvfrom (sd : Int)
  | socket
  | bind (sd : Int)
  | setsockopt (sd : Int)
  | close (sd : Int)
deriving DecidableEq, Repr

/-- Answer of `recvfrom`: the return value, the buffer contents after the call and
the sender address written to `cliAddr`. -/
structure recvfrom_r where
  len : Int
  data : List Nat
  sin_addr : Nat
deriving DecidableEq, Repr

/-- Environment of `artnet_net_send` and `artnet_net_recv`. -/
structure net_env where
  /-- Byte order of the host. -/
  little_endian : Bool
  /-- Call `sendto(sd, data, length, 0, addr, ..)`: the `ssize_t` it returns. -/
  sendto : Int → List Nat → Int → Nat → Int
  /-- Call `select(maxfdp1, rset, NULL, NULL, tv)`: the value it returns. -/
  select : Int → Int → Int
  /-- Value of `errno` after that call of `select`. -/
  select_errno : Int → Int → Int
  /-- Call `recvfrom(sd, data, sizeof data, 0, cliAddr, cliLen)`, given the buffer. -/
  recvfrom : Int → List Nat → recvfrom_r
  /-- Function `get_type(p)`, defined outside `network.c`: classifies the packet. -/
  get_type : artnet_packet_t → artnet_packet_t
  /-- Effect of calling the handler `fh(n, p, data)` on the node and the packet. -/
  call_fh : Nat → artnet_node_t → artnet_packet_t → Nat → artnet_node_t × artnet_packet_t

/-- Outcome of a call: the value returned, the node and the packet afterwards, and
the calls made. -/
structure net_r where
  ret : Int
  node : artnet_node_t
  packet : artnet_packet_t
  trace : List event
deriving DecidableEq, Repr

/-! ## `artnet_net_send` and `artnet_net_recv` -/

/-- Function `int artnet_net_send(node n, artnet_packet p)`. -/
def artnet_net_send (e : net_env) (n : artnet_node_t) (p : artnet_packet_t) : net_r :=
  if n.state.mode ≠ ARTNET_ON then
    ⟨ARTNET_EACTION, n, p, []⟩
  else
    let addr := p.to_
    let p := { p with from_ := n.state.ip_addr }
    let ret := to_int32 (e.sendto n.sd p.data p.length addr)
    let tr := [event.sendto n.sd p.data p.length addr]
    if ret = -1 then
      ⟨ARTNET_ENET, { n with state := { n.state with report_code := ARTNET_RCUDPFAIL } }, p, tr⟩
    else if p.length ≠ ret then
      ⟨ARTNET_ENET, { n with state := { n.state with report_code := ARTNET_RCSOCKETWR1 } }, p, tr⟩
    else
      match n.send.fh with
      | some fh =>
        let p := e.get_type p
        let np := e.call_fh fh n p n.send.data
        ⟨ARTNET_EOK, np.1, np.2, tr ++ [event.send_fh fh n.send.data]⟩
      | none => ⟨ARTNET_EOK, n, p, tr⟩

/-- Function `int artnet_net_recv(node n, artnet_packet p, int delay)`. The first
statements are `FD_ZERO(&rset); FD_SET((unsigned int) n->sd, &rset);`: `FD_SET`
writes bit `(unsigned int) n->sd` of `rset`, which lies inside `rset` only below
`FD_SETSIZE`; otherwise the run writes outside `rset` and has no result. This
comes before `p->length = 0`. -/
def artnet_net_recv (e : net_env) (n : artnet_node_t) (p : artnet_packet_t)
    (delay : Int) : Option net_r :=
  let maxfdp1 := n.sd + 1
  if ¬ to_uint32 n.sd < FD_SETSIZE then
    none
  else
    let p := { p with length := 0 }
    let tr := [event.select maxfdp1 delay p.length]
    let sel := e.select maxfdp1 delay
    if sel = 0 then
      some ⟨RECV_NO_DATA, n, p, tr⟩
    else if sel = -1 then
      if e.select_errno maxfdp1 delay ≠ EINTR then
        some ⟨ARTNET_ENET, n, p, tr⟩
      else
        some ⟨ARTNET_EOK, n, p, tr⟩
    else
      let r := e.recvfrom n.sd p.data
      let tr := tr ++ [event.recvfrom n.sd]
      if r.len < 0 then
        some ⟨ARTNET_ENET, n, p, tr⟩
      else
        let p := { p with data := r.data }
        if r.sin_addr = n.state.ip_addr ∨ ntohl e.little_endian r.sin_addr = LOOPBACK_IP then
          some ⟨ARTNET_EOK, n, { p with length := 0 }, tr⟩
        else
          some ⟨ARTNET_EOK, n, { p with length := to_int32 r.len, from_ := r.sin_addr }, tr⟩

/-! ## Interface discovery -/

/-- Constant `IFF_UP` of `<net/if.h>`. -/
def IFF_UP : Nat := 0x1

/-- Constant `IFF_BROADCAST` of `<net/if.h>`. -/
def IFF_BROADCAST : Nat := 0x2

/-- Constant `IFF_LOOPBACK` of `<net/if.h>`. -/
def IFF_LOOPBACK : Nat := 0x8

/-- Constant `AF_INET` of `<sys/socket.h>`. -/
def AF_INET : Nat := 2

/-- Constant `AF_PACKET` of `<sys/socket.h>`. -/
def AF_PACKET : Nat := 17

/-- Constant `EINVAL` of `<errno.h>`. -/
def EINVAL : Int := 22

/-- Type `iface_t` without its `next` pointer; names are the bytes of the C string. -/
structure iface_t where
  ip_addr : Nat
  bcast_addr : Nat
  hw_addr : bytes_t ARTNET_MAC_SIZE
  if_name : List Nat
deriving DecidableEq, Repr

/-- The record `calloc(1, sizeof(iface_t))` returns: all bytes zero. -/
def iface_zero : iface_t :=
  { ip_addr := 0, bcast_addr := 0, hw_addr := ⟨List.replicate ARTNET_MAC_SIZE 0, rfl⟩,
    if_name := [] }

/-- Outcome of `get_ifaces`: the value returned, the list stored in `*ift_head_r`
(`none` when nothing is stored) and the records handed to `free_ifaces`. -/
structure get_ifaces_r where
  ret : Int
  ift_head_r : Option (List iface_t)
  freed : List iface_t
deriving DecidableEq, Repr

/-- Function `free_ifaces(head)`: every record of the list is released. -/
def free_ifaces (head : List iface_t) : List iface_t := head

/-- Function `strncmp(a, b, n)` on C strings given by their bytes. -/
def strncmp : List Nat → List Nat → Nat → Int
  | _, _, 0 => 0
  | [], [], _ + 1 => 0
  | [], d :: _, _ + 1 => - (d : Int)
  | c :: _, [], _ + 1 => (c : Int)
  | c :: cs, d :: ds, n + 1 => if c = d then strncmp cs ds n else (c : Int) - (d : Int)

/-- Statement `if ((cptr = strchr(if_name, ':'))) *cptr = 0;`: cut the string at the first
colon. -/
def strip_alias (if_name : List Nat) : List Nat := if_name.takeWhile (fun c => c ≠ 58)

/-! ### Strategy `USE_GETIFADDRS` -/

/-- Type `struct sockaddr`, with the views `sockaddr_in` and `sockaddr_ll` of its bytes. -/
structure sockaddr where
  sa_family : Nat
  sin_addr : Nat
  sll_addr : bytes_t 8
deriving DecidableEq, Repr

/-- Type `struct ifaddrs` without its `ifa_next` pointer; a `NULL` address is `none`. -/
structure ifaddrs where
  ifa_name : List Nat
  ifa_flags : Nat
  ifa_addr : Option sockaddr
  ifa_broadaddr : Option sockaddr
deriving DecidableEq, Repr

/-- Environment of the `getifaddrs` strategy. -/
structure getifaddrs_env where
  /-- The list `getifaddrs` produces, `none` when the call fails. -/
  getifaddrs : Option (List ifaddrs)
  /-- Whether the `calloc` in `check_iface` for the entry at this position succeeds. -/
  calloc_ok : Nat → Bool
  /-- Whether the `strdup` for the record at this position succeeds. -/
  strdup_ok : Nat → Bool

/-- Function `static iface_t *check_iface(struct ifaddrs *ifa)`, given the outcome of its
`calloc`. `some none` is the return value `0`, `some (some r)` a new record, `none`
a run that reads through the `NULL` pointer `ifa_broadaddr`. -/
def check_iface (calloc_ok : Bool) (ifa : ifaddrs) : Option (Option iface_t) :=
  match ifa.ifa_addr with
  | none => some none
  | some addr =>
    if ifa.ifa_flags &&& IFF_UP = 0 then some none
    else if ifa.ifa_flags &&& IFF_LOOPBACK ≠ 0 then some none
    else if addr.sa_family ≠ AF_INET then some none
    else if ¬ calloc_ok then some none
    else
      let ret := { iface_zero with ip_addr := addr.sin_addr,
                                   if_name := ifa.ifa_name.take (IFNAME_SIZE - 1) }
      if ifa.ifa_flags &&& IFF_BROADCAST ≠ 0 then
        match ifa.ifa_broadaddr with
        | none => none
        | some b => some (some { ret with bcast_addr := b.sin_addr })
      else some (some ret)

/-- First loop of `get_ifaces`: `check_iface` on every entry, new records appended
at the tail (`if_iter->next = if_tmp`). `i` is the position of the next entry and
`if_head` the list so far. -/
def collect_ifaces (calloc_ok : Nat → Bool) :
    Nat → List ifaddrs → List iface_t → Option (List iface_t)
  | _, [], if_head => some if_head
  | i, ifa_iter :: rest, if_head =>
    match check_iface (calloc_ok i) ifa_iter with
    | none => none
    | some none => collect_ifaces calloc_ok (i + 1) rest if_head
    | some (some if_tmp) => collect_ifaces calloc_ok (i + 1) rest (if_head ++ [if_tmp])

/-- Inner loop of the second pass: the first `AF_PACKET` entry whose name matches
`if_name` in its first `IFNAME_SIZE` bytes. -/
def find_hw (if_name : List Nat) : List ifaddrs → Option (bytes_t 8)
  | [] => none
  | ifa_iter :: rest =>
    match ifa_iter.ifa_addr with
    | none => find_hw if_name rest
    | some addr =>
      if addr.sa_family ≠ AF_PACKET then find_hw if_name rest
      else if strncmp if_name ifa_iter.ifa_name IFNAME_SIZE = 0 then some addr.sll_addr
      else find_hw if_name rest

/-- Second loop of `get_ifaces`: each record gets the hardware address of the
matching `AF_PACKET` entry. `none` is a run in which `strdup` returns `NULL`, which
`strchr` then reads. -/
def match_hw (strdup_ok : Nat → Bool) (ifa : List ifaddrs) :
    Nat → List iface_t → Option (List iface_t)
  | _, [] => some []
  | j, if_iter :: rest =>
    if ¬ strdup_ok j then none
    else
      let if_name := strip_alias if_iter.if_name
      let if_iter :=
        match find_hw if_name ifa with
        | some sll => { if_iter with hw_addr := memcpy_mac if_iter.hw_addr sll (by decide) }
        | none => if_iter
      match match_hw strdup_ok ifa (j + 1) rest with
      | none => none
      | some l => some (if_iter :: l)

/-- Function `static int get_ifaces(iface_t **ift_head_r)`, strategy `USE_GETIFADDRS`. -/
def get_ifaces_getifaddrs (e : getifaddrs_env) : Option get_ifaces_r :=
  match e.getifaddrs with
  | none => some ⟨ARTNET_ENET, none, []⟩
  | some ifa =>
    match collect_ifaces e.calloc_ok 0 ifa [] with
    | none => none
    | some if_head =>
      match match_hw e.strdup_ok ifa 0 if_head with
      | none => none
      | some if_head => some ⟨0, some if_head, []⟩

/-! ### Strategy `ioctl` -/

/-- Type `struct ifreq` as returned by `SIOCGIFCONF`: the name and the address, the
latter with its `sockaddr_in` view. -/
structure ifreq where
  ifr_name : List Nat
  sa_family : Nat
  sin_addr : Nat
deriving DecidableEq, Repr

/-- One round of the buffer loop: whether `malloc(len)` succeeds, and the answer of
`ioctl(sd, SIOCGIFCONF, &ifc)`: its return value, `errno`, the `ifc_len` it stores
and the records of the buffer which the walk `ptr += sizeof(ifr->ifr_name) + len`
visits below `buf + ifc.ifc_len`, in that order. -/
structure ifconf_answer where
  malloc_ok : Bool
  ioctl : Int
  errno : Int
  ifc_len : Int
  ifr : List ifreq
deriving DecidableEq, Repr

/-- Environment of the `ioctl` strategy. The per-interface requests are answered by
interface name, `none` being a return value below zero. -/
structure ioctl_env where
  /-- Return value of `socket(PF_INET, SOCK_DGRAM, 0)`. -/
  socket : Int
  /-- Whether `SIOCGIFBRDADDR` is defined on the platform. -/
  have_SIOCGIFBRDADDR : Bool
  /-- Value of `SIOCGIFHWADDR`, `none` when the platform does not define it. -/
  SIOCGIFHWADDR : Option Nat
  /-- Answers to the successive rounds of the buffer loop. -/
  ifconf : List ifconf_answer
  /-- Call `ioctl(sd, SIOCGIFFLAGS, &ifrcopy)`: the flags, as a bit pattern. -/
  siocgifflags : List Nat → Option Nat
  /-- Call `ioctl(sd, SIOCGIFBRDADDR, &ifrcopy)`: the broadcast address. -/
  siocgifbrdaddr : List Nat → Option Nat
  /-- Call `ioctl(sd, SIOCGIFHWADDR, &ifrcopy)`: `ifr_hwaddr.sa_data`. -/
  siocgifhwaddr : List Nat → Option (bytes_t 14)
  /-- Whether the `calloc` for the record at this position of the buffer succeeds. -/
  calloc_ok : Nat → Bool

/-- The `for (;;)` loop that sizes the buffer. `none`: the answers given do not
end the loop. `some (.error ret)`: the loop leaves by `goto e_free`. `some (.ok a)`:
the loop leaves by `break` with the buffer of answer `a`. -/
def ifconf_loop : List ifconf_answer → Int → Option (Except Int ifconf_answer)
  | [], _ => none
  | a :: rest, lastlen =>
    if ¬ a.malloc_ok then some (.error ARTNET_EMEM)
    else if a.ioctl < 0 then
      if a.errno ≠ EINVAL ∨ lastlen ≠ 0 then some (.error ARTNET_ENET)
      else ifconf_loop rest lastlen
    else if a.ifc_len = lastlen then some (.ok a)
    else ifconf_loop rest a.ifc_len

/-- Broadcast step for a new record (`#ifdef SIOCGIFBRDADDR`); `none` is the
`goto e_free_list` of a failing request. -/
def fetch_bcast (e : ioctl_env) (ifr : ifreq) (flags : Nat) (ift : iface_t) : Option iface_t :=
  if e.have_SIOCGIFBRDADDR ∧ flags &&& IFF_BROADCAST ≠ 0 then
    match e.siocgifbrdaddr ifr.ifr_name with
    | none => none
    | some b => some { ift with bcast_addr := b }
  else some ift

/-- Hardware address step for a new record (`#ifdef SIOCGIFHWADDR`), guarded by
`flags & SIOCGIFHWADDR` as in the source; `none` is the `goto e_free_list` of a
failing request. -/
def fetch_hw (e : ioctl_env) (ifr : ifreq) (flags : Nat) (ift : iface_t) : Option iface_t :=
  match e.SIOCGIFHWADDR with
  | none => some ift
  | some req =>
    if flags &&& req ≠ 0 then
      match e.siocgifhwaddr ifr.ifr_name with
      | none => none
      | some sa_data => some { ift with hw_addr := memcpy_mac ift.hw_addr sa_data (by decide) }
    else some ift

/-- The loop through the records of the buffer. `i` is the position of the next
record, `ift_head` the list so far. `.error (ret, l)` is a `goto e_free_list` with
return value `ret` and list `l`; `.ok l` is the end of the buffer with list `l`. -/
def walk_ifreq (e : ioctl_env) :
    Nat → List ifreq → List iface_t → Except (Int × List iface_t) (List iface_t)
  | _, [], ift_head => .ok ift_head
  | i, ifr :: rest, ift_head =>
    if ifr.sa_family = AF_INET then
      match e.siocgifflags ifr.ifr_name with
      | none => .error (ARTNET_ENET, ift_head)
      | some flags =>
        if flags &&& IFF_UP = 0 then walk_ifreq e (i + 1) rest ift_head
        else if flags &&& IFF_LOOPBACK ≠ 0 then walk_ifreq e (i + 1) rest ift_head
        else if ¬ e.calloc_ok i then .error (ARTNET_EMEM, ift_head)
        else
          let ift := { iface_zero with ip_addr := ifr.sin_addr }
          match fetch_bcast e ifr flags ift with
          | none => .error (ARTNET_ENET, ift_head ++ [ift])
          | some ift =>
            match fetch_hw e ifr flags ift with
            | none => .error (ARTNET_ENET, ift_head ++ [ift])
            | some ift => walk_ifreq e (i + 1) rest (ift_head ++ [ift])
    else walk_ifreq e (i + 1) rest ift_head

/-- Function `static int get_ifaces(iface_t **ift_head_r)`, strategy `ioctl`. -/
def get_ifaces_ioctl (e : ioctl_env) : Option get_ifaces_r :=
  if e.socket < 0 then some ⟨ARTNET_ENET, none, []⟩
  else
    match ifconf_loop e.ifconf 0 with
    | none => none
    | some (.error ret) => some ⟨ret, none, []⟩
    | some (.ok a) =>
      match walk_ifreq e 0 a.ifr [] with
      | .error (ret, ift_head) => some ⟨ret, none, free_ifaces ift_head⟩
      | .ok ift_head => some ⟨ARTNET_EOK, some ift_head, []⟩

/-- The build selects one strategy (`#ifdef USE_GETIFADDRS ... #else ... #endif`);
each comes with its environment. -/
inductive ifaces_env where
  | use_getifaddrs (e : getifaddrs_env)
  | use_ioctl (e : ioctl_env)

/-- Function `get_ifaces` of the build. -/
def get_ifaces : ifaces_env → Option get_ifaces_r
  | .use_getifaddrs e => get_ifaces_getifaddrs e
  | .use_ioctl e => get_ifaces_ioctl e

/-- An entry of `getifaddrs` is usable: it is up, is not a loopback and its address
has family `AF_INET`. -/
def ifaddrs_usable (x : ifaddrs) : Prop :=
  x.ifa_flags &&& IFF_UP ≠ 0 ∧ x.ifa_flags &&& IFF_LOOPBACK = 0 ∧
    x.ifa_addr.map (fun addr => addr.sa_family) = some AF_INET

/-- A record of the `SIOCGIFCONF` buffer is usable: its address has family
`AF_INET` and the flags `SIOCGIFFLAGS` reports for it say up and not loopback. -/
def ifreq_usable (e : ioctl_env) (x : ifreq) : Prop :=
  x.sa_family = AF_INET ∧
    ∃ flags, e.siocgifflags x.ifr_name = some flags ∧
      flags &&& IFF_UP ≠ 0 ∧ flags &&& IFF_LOOPBACK = 0

/-! ## `artnet_net_init` -/

/-- Function `int artnet_net_inet_aton(const char *ip_address, struct in_addr *address)`.
The conversion of the C library (`inet_aton`, or `inet_addr` in the other build) is
the parameter `inet_aton`: it fails (`none`) or yields an address. The pair is the
value returned and the contents of `*address` afterwards. -/
def artnet_net_inet_aton (inet_aton : String → Option Nat) (ip_address : String)
    (address : Nat) : Int × Nat :=
  match inet_aton ip_address with
  | none => (ARTNET_EARG, address)
  | some a => (ARTNET_EOK, a)

/-- The search loop of `artnet_net_init`: the first record, in list order, whose
`ip_addr` is `wanted_ip` (`found` stays `FALSE` when there is none). -/
def find_iface (wanted_ip : Nat) : List iface_t → Option iface_t
  | [] => none
  | ift :: rest => if ift.ip_addr = wanted_ip then some ift else find_iface wanted_ip rest

/-- The three assignments that copy the addresses of a record into the node. -/
def set_addresses (n : artnet_node_t) (ift : iface_t) : artnet_node_t :=
  { n with state := { n.state with
      ip_addr := ift.ip_addr,
      bcast_addr := ift.bcast_addr,
      hw_addr := memcpy_mac n.state.hw_addr ift.hw_addr (by decide) } }

/-- Environment of `artnet_net_init`: the discovery strategy of the build with its
environment, and the address conversion of the C library. -/
structure init_env where
  ifaces : ifaces_env
  inet_aton : String → Option Nat

/-- Outcome of `artnet_net_init`: the value returned, the node afterwards and the
records handed to `free_ifaces`. -/
structure init_r where
  ret : Int
  node : artnet_node_t
  freed : List iface_t
deriving DecidableEq, Repr

/-- Function `int artnet_net_init(node n, const char *preferred_ip)`; a `NULL`
`preferred_ip` is `none`. -/
def artnet_net_init (e : init_env) (n : artnet_node_t) (preferred_ip : Option String) :
    Option init_r :=
  match get_ifaces e.ifaces with
  | none => none
  | some g =>
    if g.ret ≠ 0 then some ⟨g.ret, n, g.freed⟩
    else
      let ift_head := g.ift_head_r.getD []
      match preferred_ip with
      | some ip =>
        let r := artnet_net_inet_aton e.inet_aton ip 0
        if r.1 ≠ 0 then some ⟨r.1, n, g.freed ++ free_ifaces ift_head⟩
        else
          match find_iface r.2 ift_head with
          | some ift => some ⟨ARTNET_EOK, set_addresses n ift, g.freed ++ free_ifaces ift_head⟩
          | none => some ⟨ARTNET_ENET, n, g.freed ++ free_ifaces ift_head⟩
      | none =>
        match ift_head with
        | ift :: _ => some ⟨ARTNET_EOK, set_addresses n ift, g.freed ++ free_ifaces ift_head⟩
        | [] => some ⟨ARTNET_ENET, n, g.freed ++ free_ifaces ift_head⟩

/-! ## `artnet_net_start` -/

/-- The nodes of the program, by address: `node` is a pointer into this store. -/
abbrev heap_t := Nat → artnet_node_t

/-- Store `v` at address `a`. -/
def heap_set (h : heap_t) (a : Nat) (v : artnet_node_t) : heap_t :=
  fun b => if b = a then v else h b

/-- Environment of `artnet_net_start`: the return values of `socket`, and of `bind`
and `setsockopt` on a descriptor. -/
structure start_env where
  socket : Int
  bind : Int → Int
  setsockopt : Int → Int

/-- Outcome of `artnet_net_start`: the value returned, the store afterwards, the
system calls made, and the nodes the propagation loop assigned to, in order. -/
structure start_r where
  ret : Int
  heap : heap_t
  trace : List event
  assigned : List Nat

/-- The propagation loop
`for (tmp = n->peering.peer; tmp != NULL && tmp != n; tmp = tmp->peering.peer) tmp->sd = n->sd;`
from the current `tmp`. The first argument bounds the number of tests of the loop
condition; `none` when that bound is reached. The result is the store and the
nodes assigned to, in order. -/
def propagate_sd : Nat → heap_t → Nat → Option Nat → Option (heap_t × List Nat)
  | 0, _, _, _ => none
  | _ + 1, h, _, none => some (h, [])
  | fuel + 1, h, n, some tmp =>
    if tmp = n then some (h, [])
    else
      let h := heap_set h tmp { h tmp with sd := (h n).sd }
      match propagate_sd fuel h n (h tmp).peering.peer with
      | none => none
      | some (h, l) => some (h, tmp :: l)

/-- Function `int artnet_net_start(node n)` on the store `h`; `fuel` bounds the propagation
loop. -/
def artnet_net_start (e : start_env) (fuel : Nat) (h : heap_t) (n : Nat) : Option start_r :=
  if (h n).peering.master = TRUE then
    let h := heap_set h n { h n with sd := e.socket }
    if (h n).sd < 0 then
      some ⟨ARTNET_ENET, h, [event.socket], []⟩
    else if e.bind (h n).sd = -1 then
      some ⟨ARTNET_ENET, h, [event.socket, event.bind (h n).sd, event.close (h n).sd], []⟩
    else if e.setsockopt (h n).sd = -1 then
      some ⟨ARTNET_ENET, h,
        [event.socket, event.bind (h n).sd, event.setsockopt (h n).sd, event.close (h n).sd], []⟩
    else
      match propagate_sd fuel h n (h n).peering.peer with
      | none => none
      | some (h1, l) =>
        some ⟨ARTNET_EOK, h1, [event.socket, event.bind (h n).sd, event.setsockopt (h n).sd], l⟩
  else
    some ⟨ARTNET_EOK, h, [], []⟩

/-- The peer relation, followed from the pointer `cur`, visits the nodes `peers` in
order, none of them `n`, and then reaches `n`. -/
def peer_cycle (h : heap_t) (n : Nat) : Option Nat → List Nat → Prop
  | cur, [] => cur = some n
  | cur, p :: ps => cur = some p ∧ p ≠ n ∧ peer_cycle h n (h p).peering.peer ps

/-! ## Byte conversions (`src/artnet/misc.c`) -/

/-- Bit pattern of a C `int`: the 32 bit two's complement word, read as unsigned.
The operators `&`, `|`, `<<` and `>>` of the two conversions act on it. -/
def int_bits (x : Int) : Nat := (x % 4294967296).toNat

/-- Function `int32_t artnet_misc_nbytes_to_32(uint8_t bytes[4])`:
`o = (bytes[0] << 24) | (bytes[1] << 16) | (bytes[2] << 8) | bytes[3]`, the word
being converted to `int32_t` modulo 2^32. -/
def artnet_misc_nbytes_to_32 (bytes : List Nat) : Int :=
  to_int32 ((((bytes.getD 0 0 <<< 24 ||| bytes.getD 1 0 <<< 16) ||| bytes.getD 2 0 <<< 8)
    ||| bytes.getD 3 0 : Nat) : Int)

/-- Function `void artnet_misc_int_to_bytes(int data, uint8_t *bytes)`: the four
assignments in source order, each value converted to `uint8_t` (modulo 256). The
result is the array afterwards. -/
def artnet_misc_int_to_bytes (data : Int) (bytes : List Nat) : List Nat :=
  let bytes := bytes.set 3 ((int_bits data &&& 0x000000FF) % 256)
  let bytes := bytes.set 2 (((int_bits data &&& 0x0000FF00) >>> 8) % 256)
  let bytes := bytes.set 1 (((int_bits data &&& 0x00FF0000) >>> 16) % 256)
  bytes.set 0 (((int_bits data &&& 0xFF000000) >>> 24) % 256)

/-! ## Concrete inputs used to evaluate the definitions -/

/-- A node in mode `ARTNET_ON` with address 10.0.0.1 and a registered send handler. -/
def node_on : artnet_node_t :=
  { sd := 3,
    state := { verbose := false, mode := ARTNET_ON, report_code := ARTNET_RCPOWEROK,
               ip_addr := 0x0A000001, bcast_addr := 0x0A0000FF, hw_addr := ⟨[0, 0, 0, 0, 0, 0], rfl⟩ },
    send := { fh := some 7, data := 42 },
    peering := { peer := none, master := 1 } }

/-- The same node in mode `ARTNET_STANDBY`. -/
def node_standby : artnet_node_t :=
  { node_on with state := { node_on.state with mode := ARTNET_STANDBY } }

/-- The node with descriptor -1: the value `artnet_net_start` leaves in `sd` when
`socket` fails. -/
def node_no_socket : artnet_node_t := { node_on with sd := -1 }

/-- The node with descriptor 5000, as `socket` returns in a process that holds that
many descriptors. -/
def node_high_sd : artnet_node_t := { node_on with sd := 5000 }

/-- A packet of 10 bytes for 10.0.0.2. -/
def packet10 : artnet_packet_t :=
  { length := 10, from_ := 5, to_ := 0x0A000002, type := 0,
    data := [65, 114, 116, 45, 78, 101, 116, 0, 0, 32] }

/-- An environment on a big endian host: `sendto` returns `sent`, `select` returns
`sel` with `errno` set to `err`, `recvfrom` returns `rlen` bytes from sender `src`;
the handler stamps the packet type. -/
def env_of (sent sel err rlen : Int) (src : Nat) : net_env :=
  { little_endian := false,
    sendto := fun _ _ _ _ => sent,
    select := fun _ _ => sel,
    select_errno := fun _ _ => err,
    recvfrom := fun _ d => ⟨rlen, d, src⟩,
    get_type := fun p => { p with type := 0x5000 },
    call_fh := fun _ n p _ => (n, p) }

/-- Hardware address 02:00:00:00:00:01 in a `sockaddr_ll`. -/
def sll_eth0 : bytes_t 8 := ⟨[2, 0, 0, 0, 0, 1, 0, 0], rfl⟩

/-- An all-zero `sll_addr`. -/
def sll_zero : bytes_t 8 := ⟨[0, 0, 0, 0, 0, 0, 0, 0], rfl⟩

/-- The name `lo`. -/
def name_lo : List Nat := [108, 111]

/-- The name `eth0`. -/
def name_eth0 : List Nat := [101, 116, 104, 48]

/-- The name `eth0:1`. -/
def name_eth0_1 : List Nat := [101, 116, 104, 48, 58, 49]

/-- The name `wlan0`. -/
def name_wlan0 : List Nat := [119, 108, 97, 110, 48]

/-- A `getifaddrs` list: `lo` (loopback, 127.0.0.1), `eth0` as `AF_PACKET` entry,
`eth0` 10.0.0.1, the alias `eth0:1` 10.0.0.2, `wlan0` 192.168.1.7 which is down, and
`eth0` once more with an address of family 10 (`AF_INET6`). -/
def ifa_sample : List ifaddrs :=
  [ { ifa_name := name_lo, ifa_flags := 0x49,
      ifa_addr := some ⟨AF_INET, 0x7F000001, sll_zero⟩, ifa_broadaddr := none },
    { ifa_name := name_eth0, ifa_flags := 0x1043,
      ifa_addr := some ⟨AF_PACKET, 0, sll_eth0⟩, ifa_broadaddr := none },
    { ifa_name := name_eth0, ifa_flags := 0x1043,
      ifa_addr := some ⟨AF_INET, 0x0A000001, sll_zero⟩,
      ifa_broadaddr := some ⟨AF_INET, 0x0A0000FF, sll_zero⟩ },
    { ifa_name := name_eth0_1, ifa_flags := 0x1043,
      ifa_addr := some ⟨AF_INET, 0x0A000002, sll_zero⟩,
      ifa_broadaddr := some ⟨AF_INET, 0x0A0000FF, sll_zero⟩ },
    { ifa_name := name_wlan0, ifa_flags := 0x1002,
      ifa_addr := some ⟨AF_INET, 0xC0A80107, sll_zero⟩,
      ifa_broadaddr := some ⟨AF_INET, 0xC0A801FF, sll_zero⟩ },
    { ifa_name := name_eth0, ifa_flags := 0x1043,
      ifa_addr := some ⟨10, 0, sll_zero⟩, ifa_broadaddr := none } ]

/-- The `getifaddrs` strategy on `ifa_sample` with every allocation succeeding. -/
def env_getifaddrs : getifaddrs_env :=
  { getifaddrs := some ifa_sample, calloc_ok := fun _ => true, strdup_ok := fun _ => true }

/-- The `getifaddrs` strategy on a host whose list is empty. -/
def env_getifaddrs_empty : getifaddrs_env :=
  { getifaddrs := some [], calloc_ok := fun _ => true, strdup_ok := fun _ => true }

/-- The `getifaddrs` strategy on the single entry `eth0` 10.0.0.1 (up, not loopback,
`AF_INET`) when the `calloc` for it fails. -/
def env_getifaddrs_nomem : getifaddrs_env :=
  { getifaddrs := some [ { ifa_name := name_eth0, ifa_flags := 0x1043,
                           ifa_addr := some ⟨AF_INET, 0x0A000001, sll_zero⟩,
                           ifa_broadaddr := some ⟨AF_INET, 0x0A0000FF, sll_zero⟩ } ],
    calloc_ok := fun _ => false, strdup_ok := fun _ => true }

/-- Buffer of the `ioctl` strategy: `lo` 127.0.0.1, `eth0` 10.0.0.1, `wlan0`
192.168.1.7, and a record of family 10. -/
def ifr_sample : List ifreq :=
  [ ⟨name_lo, AF_INET, 0x7F000001⟩, ⟨name_eth0, AF_INET, 0x0A000001⟩,
    ⟨name_wlan0, AF_INET, 0xC0A80107⟩, ⟨name_eth0, 10, 0⟩ ]

/-- The `ioctl` strategy on Linux (`SIOCGIFHWADDR` is `0x8927`): the first round
fills the buffer, the second returns the same length; `lo` is a loopback, `eth0` is
up with broadcast, `wlan0` is down; `calloc` succeeds where `calloc_ok` says. -/
def env_ioctl (calloc_ok : Nat → Bool) : ioctl_env :=
  { socket := 4, have_SIOCGIFBRDADDR := true, SIOCGIFHWADDR := some 0x8927,
    ifconf := [⟨true, 0, 0, 128, ifr_sample⟩, ⟨true, 0, 0, 128, ifr_sample⟩],
    siocgifflags := fun nm =>
      if nm = name_lo then some 0x49 else if nm = name_eth0 then some 0x1043 else some 0x1002,
    siocgifbrdaddr := fun _ => some 0x0A0000FF,
    siocgifhwaddr := fun _ => some ⟨[2, 0, 0, 0, 0, 1, 0, 0, 0, 0, 0, 0, 0, 0], rfl⟩,
    calloc_ok := calloc_ok }

/-- An address conversion that knows three dotted quads and rejects everything
else. -/
def inet_aton_sample (s : String) : Option Nat :=
  if s = "10.0.0.1" then some 0x0A000001
  else if s = "10.0.0.2" then some 0x0A000002
  else if s = "192.168.1.7" then some 0xC0A80107
  else none

/-- The record for `eth0`, 10.0.0.1. -/
def iface_eth0 : iface_t :=
  { ip_addr := 0x0A000001, bcast_addr := 0x0A0000FF,
    hw_addr := ⟨[2, 0, 0, 0, 0, 1], rfl⟩, if_name := name_eth0 }

/-- The record for the alias `eth0:1`, 10.0.0.2. -/
def iface_eth0_1 : iface_t :=
  { ip_addr := 0x0A000002, bcast_addr := 0x0A0000FF,
    hw_addr := ⟨[2, 0, 0, 0, 0, 1], rfl⟩, if_name := name_eth0_1 }

/-- An `init_env` on `ifa_sample` with the sample address conversion. -/
def env_init : init_env := ⟨.use_getifaddrs env_getifaddrs, inet_aton_sample⟩

/-- An `init_env` whose discovery finds no interface. -/
def env_init_empty : init_env := ⟨.use_getifaddrs env_getifaddrs_empty, inet_aton_sample⟩

/-- The records discovery builds from `ifa_sample`: `eth0` and its alias, both with
the hardware address of `eth0`. -/
def ifaces_found : List iface_t := [iface_eth0, iface_eth0_1]

/-- A peer of the group: not a master, `peer` pointing to `next`, no descriptor. -/
def node_peer (next : Nat) : artnet_node_t :=
  { node_on with sd := -1, peering := { peer := some next, master := 0 } }

/-- A store with a group of three: the master at address 0, then its peers at 1
and 2, the last pointing back to the master; every other address holds a node that
is its own group. -/
def heap3 : heap_t := fun a =>
  if a = 0 then { node_on with sd := -1, peering := { peer := some 1, master := 1 } }
  else if a = 1 then node_peer 2
  else if a = 2 then node_peer 0
  else { node_on with sd := -1, peering := { peer := none, master := 1 } }

/-- An environment in which `socket` returns 5 and `bind` and `setsockopt` return 0. -/
def env_start : start_env := { socket := 5, bind := fun _ => 0, setsockopt := fun _ => 0 }

/-- The record the `ioctl` strategy builds for `eth0`; this strategy stores no
name. -/
def iface_eth0_ioctl : iface_t :=
  { ip_addr := 0x0A000001, bcast_addr := 0x0A0000FF,
    hw_addr := ⟨[2, 0, 0, 0, 0, 1], rfl⟩, if_name := [] }

/-! ## Theorems: `artnet_net_send` -/

theorem to_int32_of_range (x : Int) (h0 : -2147483648 ≤ x) (h1 : x ≤ 2147483647) :
    to_int32 x = x := by
  unfold to_int32
  omega

/-- C1: for a node whose mode is not `ARTNET_ON`, `artnet_net_send` returns
`ARTNET_EACTION`, makes no call at all (neither `sendto` nor the send handler), and
leaves the node (its `report_code` included) and the packet (its `from` field
included) as they were. -/
theorem artnet_net_send_disabled (e : net_env) (n : artnet_node_t) (p : artnet_packet_t)
    (hmode : n.state.mode ≠ ARTNET_ON) :
    (artnet_net_send e n p).ret = ARTNET_EACTION ∧
    (artnet_net_send e n p).trace = [] ∧
    (artnet_net_send e n p).node = n ∧
    (artnet_net_send e n p).node.state.report_code = n.state.report_code ∧
    (artnet_net_send e n p).packet = p ∧
    (artnet_net_send e n p).packet.from_ = p.from_ := by
  simp [artnet_net_send, hmode]

theorem artnet_net_send_disabled_witness :
    node_standby.state.mode ≠ ARTNET_ON ∧
    (artnet_net_send (env_of 10 1 0 0 0) node_standby packet10).ret = ARTNET_EACTION ∧
    (artnet_net_send (env_of 10 1 0 0 0) node_standby packet10).trace = [] ∧
    (artnet_net_send (env_of 10 1 0 0 0) node_standby packet10).node = node_standby :=
  have h : node_standby.state.mode ≠ ARTNET_ON := by decide
  have t := artnet_net_send_disabled (env_of 10 1 0 0 0) node_standby packet10 h
  ⟨h, t.1, t.2.1, t.2.2.1⟩

/-- C2: for a node in mode `ARTNET_ON` and a packet whose `length` is a C `int`, if
`sendto` returns `r` with `0 ≤ r < p.length` then `artnet_net_send` returns
`ARTNET_ENET` and sets `report_code` to `ARTNET_RCSOCKETWR1`; if `sendto` returns
`-1` it returns `ARTNET_ENET` and sets `report_code` to `ARTNET_RCUDPFAIL`, a
different code; in both cases the only call made is the `sendto`, the send handler
is not invoked. -/
theorem artnet_net_send_short_write (e : net_env) (n : artnet_node_t) (p : artnet_packet_t)
    (hmode : n.state.mode = ARTNET_ON) (hint : p.length ≤ 2147483647) :
    (∀ r : Int, e.sendto n.sd p.data p.length p.to_ = r → 0 ≤ r → r < p.length →
      (artnet_net_send e n p).ret = ARTNET_ENET ∧
      (artnet_net_send e n p).node.state.report_code = ARTNET_RCSOCKETWR1 ∧
      (artnet_net_send e n p).trace = [event.sendto n.sd p.data p.length p.to_] ∧
      ∀ fh d, event.send_fh fh d ∉ (artnet_net_send e n p).trace) ∧
    (e.sendto n.sd p.data p.length p.to_ = -1 →
      (artnet_net_send e n p).ret = ARTNET_ENET ∧
      (artnet_net_send e n p).node.state.report_code = ARTNET_RCUDPFAIL ∧
      (artnet_net_send e n p).trace = [event.sendto n.sd p.data p.length p.to_] ∧
      ∀ fh d, event.send_fh fh d ∉ (artnet_net_send e n p).trace) ∧
    ARTNET_RCSOCKETWR1 ≠ ARTNET_RCUDPFAIL := by
  refine ⟨?_, ?_, by decide⟩
  · intro r hr h0 h1
    have hw : to_int32 r = r := to_int32_of_range r (by omega) (by omega)
    have h2 : ¬ r = -1 := by omega
    have h3 : ¬ p.length = r := by omega
    simp [artnet_net_send, hmode, hr, hw, h2, h3]
  · intro hr
    have hw : to_int32 (-1) = -1 := by decide
    simp [artnet_net_send, hmode, hr, hw]

theorem artnet_net_send_short_write_witness :
    (node_on.state.mode = ARTNET_ON ∧ packet10.length ≤ 2147483647) ∧
    ((artnet_net_send (env_of 4 1 0 0 0) node_on packet10).ret = ARTNET_ENET ∧
      (artnet_net_send (env_of 4 1 0 0 0) node_on packet10).node.state.report_code
        = ARTNET_RCSOCKETWR1) ∧
    ((artnet_net_send (env_of (-1) 1 0 0 0) node_on packet10).ret = ARTNET_ENET ∧
      (artnet_net_send (env_of (-1) 1 0 0 0) node_on packet10).node.state.report_code
        = ARTNET_RCUDPFAIL) :=
  have hm : node_on.state.mode = ARTNET_ON := by decide
  have hl : packet10.length ≤ 2147483647 := by decide
  have a := (artnet_net_send_short_write (env_of 4 1 0 0 0) node_on packet10 hm hl).1 4 rfl
    (by decide) (by decide)
  have b := (artnet_net_send_short_write (env_of (-1) 1 0 0 0) node_on packet10 hm hl).2.1 rfl
  ⟨⟨hm, hl⟩, ⟨a.1, a.2.1⟩, ⟨b.1, b.2.1⟩⟩

/-! ## Theorems: `artnet_net_recv` -/

theorem to_uint32_fd (sd : Int) (h0 : 0 ≤ sd) (h1 : sd < FD_SETSIZE) :
    to_uint32 sd < FD_SETSIZE := by
  unfold to_uint32
  unfold FD_SETSIZE at h1 ⊢
  omega

theorem artnet_net_recv_defined (e : net_env) (n : artnet_node_t) (p : artnet_packet_t)
    (delay : Int) (h0 : 0 ≤ n.sd) (h1 : n.sd < FD_SETSIZE) :
    ∃ r, artnet_net_recv e n p delay = some r := by
  have hfd := to_uint32_fd n.sd h0 h1
  unfold artnet_net_recv
  simp only [hfd, not_true_eq_false, ↓reduceIte]
  split_ifs <;> exact ⟨_, rfl⟩

/-- C3 as stated fails: the node has descriptor 5000, beyond `FD_SETSIZE`; `select`
reports one readable descriptor and `recvfrom` returns 8 bytes from 10.0.0.9, which
is neither the node's address 10.0.0.1 nor 127.0.0.1. `FD_SET` writes outside `rset`
and the run has no result: no return of `ARTNET_EOK` with `length = 8` and
`from = 10.0.0.9`. -/
theorem artnet_net_recv_self_filter_counterexample :
    0 < (env_of 0 1 0 8 0x0A000009).select (node_high_sd.sd + 1) 1 ∧
    ((env_of 0 1 0 8 0x0A000009).recvfrom node_high_sd.sd packet10.data).len = 8 ∧
    ((env_of 0 1 0 8 0x0A000009).recvfrom node_high_sd.sd packet10.data).sin_addr
      = 0x0A000009 ∧
    node_high_sd.state.ip_addr ≠ 0x0A000009 ∧
    ntohl (env_of 0 1 0 8 0x0A000009).little_endian 0x0A000009 ≠ 0x7F000001 ∧
    ¬ to_uint32 node_high_sd.sd < FD_SETSIZE ∧
    artnet_net_recv (env_of 0 1 0 8 0x0A000009) node_high_sd packet10 1 = none ∧
    ¬ ∃ r, artnet_net_recv (env_of 0 1 0 8 0x0A000009) node_high_sd packet10 1 = some r ∧
      r.ret = ARTNET_EOK ∧ r.packet.length = 8 ∧ r.packet.from_ = 0x0A000009 := by
  have hnone : artnet_net_recv (env_of 0 1 0 8 0x0A000009) node_high_sd packet10 1 = none := by
    decide
  refine ⟨by decide, by decide, by decide, by decide, by decide, by decide, hnone, ?_⟩
  rintro ⟨r, hr, _⟩
  rw [hnone] at hr
  exact absurd hr (by simp)

/-- C3 (amended): for a node whose descriptor lies in `[0, FD_SETSIZE)`, when
`select` reports readability (returns a positive count) and `recvfrom` returns
`len ≥ 0` bytes (a value of type `int`) from sender `s`: `artnet_net_recv` returns,
and if `s` is the node's own `ip_addr`, or `ntohl s` is `0x7F000001`, it returns
`ARTNET_EOK` with `length = 0` and `from` as it was; otherwise it returns
`ARTNET_EOK` with `length = len` and `from = s`. -/
theorem artnet_net_recv_self_filter (e : net_env) (n : artnet_node_t) (p : artnet_packet_t)
    (delay : Int) (hsd0 : 0 ≤ n.sd) (hsd1 : n.sd < FD_SETSIZE)
    (hsel : 0 < e.select (n.sd + 1) delay)
    (hlen : 0 ≤ (e.recvfrom n.sd p.data).len)
    (hint : (e.recvfrom n.sd p.data).len ≤ 2147483647) :
    ∃ r, artnet_net_recv e n p delay = some r ∧
      ((e.recvfrom n.sd p.data).sin_addr = n.state.ip_addr ∨
          ntohl e.little_endian (e.recvfrom n.sd p.data).sin_addr = 0x7F000001 →
        r.ret = ARTNET_EOK ∧ r.packet.length = 0 ∧ r.packet.from_ = p.from_) ∧
      (¬ ((e.recvfrom n.sd p.data).sin_addr = n.state.ip_addr ∨
          ntohl e.little_endian (e.recvfrom n.sd p.data).sin_addr = 0x7F000001) →
        r.ret = ARTNET_EOK ∧ r.packet.length = (e.recvfrom n.sd p.data).len ∧
        r.packet.from_ = (e.recvfrom n.sd p.data).sin_addr) := by
  have hfd := to_uint32_fd n.sd hsd0 hsd1
  have h0 : ¬ e.select (n.sd + 1) delay = 0 := by omega
  have h1 : ¬ e.select (n.sd + 1) delay = -1 := by omega
  have h2 : ¬ (e.recvfrom n.sd p.data).len < 0 := by omega
  have hw := to_int32_of_range (e.recvfrom n.sd p.data).len (by omega) hint
  obtain ⟨r, hr⟩ := artnet_net_recv_defined e n p delay hsd0 hsd1
  refine ⟨r, hr, ?_, ?_⟩
  · intro hs
    have hs' : (e.recvfrom n.sd p.data).sin_addr = n.state.ip_addr ∨
        ntohl e.little_endian (e.recvfrom n.sd p.data).sin_addr = LOOPBACK_IP := hs
    simp [artnet_net_recv, hfd, h0, h1, h2, hs'] at hr
    subst hr
    exact ⟨rfl, rfl, rfl⟩
  · intro hs
    have hs' : ¬ ((e.recvfrom n.sd p.data).sin_addr = n.state.ip_addr ∨
        ntohl e.little_endian (e.recvfrom n.sd p.data).sin_addr = LOOPBACK_IP) := hs
    simp [artnet_net_recv, hfd, h0, h1, h2, hs'] at hr
    subst hr
    exact ⟨rfl, hw, rfl⟩

theorem artnet_net_recv_self_filter_witness :
    (∃ r, artnet_net_recv (env_of 0 1 0 8 0x0A000001) node_on packet10 1 = some r ∧
      r.ret = ARTNET_EOK ∧ r.packet.length = 0 ∧ r.packet.from_ = 5) ∧
    (∃ r, artnet_net_recv (env_of 0 1 0 8 0x0A000009) node_on packet10 1 = some r ∧
      r.ret = ARTNET_EOK ∧ r.packet.length = 8 ∧ r.packet.from_ = 0x0A000009) :=
  have a := artnet_net_recv_self_filter (env_of 0 1 0 8 0x0A000001) node_on packet10 1
    (by decide) (by decide) (by decide) (by decide) (by decide)
  have b := artnet_net_recv_self_filter (env_of 0 1 0 8 0x0A000009) node_on packet10 1
    (by decide) (by decide) (by decide) (by decide) (by decide)
  ⟨a.elim fun r h => ⟨r, h.1, h.2.1 (by decide)⟩,
   b.elim fun r h => ⟨r, h.1, h.2.2 (by decide)⟩⟩

/-- C10 as stated fails: the node has descriptor -1 (what `artnet_net_start` leaves
in `sd` when `socket` fails) and `select` would report a timeout. `FD_SET` on
`(unsigned int) -1` writes outside `rset` before `p->length = 0`, and the run has no
result: no return of `RECV_NO_DATA` with `length = 0`. -/
theorem artnet_net_recv_no_data_counterexample :
    (artnet_net_start ⟨-1, fun _ => 0, fun _ => 0⟩ 3 heap3 0).map
        (fun r => (r.ret, (r.heap 0).sd)) = some (ARTNET_ENET, -1) ∧
    node_no_socket.sd = -1 ∧
    (env_of 0 0 0 8 9).select (node_no_socket.sd + 1) 1 = 0 ∧
    ¬ to_uint32 node_no_socket.sd < FD_SETSIZE ∧
    artnet_net_recv (env_of 0 0 0 8 9) node_no_socket packet10 1 = none ∧
    ¬ ∃ r, artnet_net_recv (env_of 0 0 0 8 9) node_no_socket packet10 1 = some r ∧
      r.ret = RECV_NO_DATA ∧ r.packet.length = 0 := by
  have hnone : artnet_net_recv (env_of 0 0 0 8 9) node_no_socket packet10 1 = none := by
    decide
  refine ⟨by decide, by decide, by decide, by decide, hnone, ?_⟩
  rintro ⟨r, hr, _⟩
  rw [hnone] at hr
  exact absurd hr (by simp)

/-- C10 (amended): for a node whose descriptor lies in `[0, FD_SETSIZE)`,
`artnet_net_recv` returns, and it has set `p->length` to 0 when it calls `select`,
its first call. When `select` returns 0 the result is `RECV_NO_DATA`; when it
returns -1 the result is `ARTNET_EOK` if `errno` is `EINTR` and `ARTNET_ENET`
otherwise; in these three cases `select` is the only call made (no `recvfrom`),
`length` is 0 and `from` is as it was. When `select` returns anything else and
`recvfrom` returns a negative count the result is `ARTNET_ENET` with `length` 0. -/
theorem artnet_net_recv_no_data (e : net_env) (n : artnet_node_t) (p : artnet_packet_t)
    (delay : Int) (hsd0 : 0 ≤ n.sd) (hsd1 : n.sd < FD_SETSIZE) :
    ∃ r, artnet_net_recv e n p delay = some r ∧
      r.trace.head? = some (event.select (n.sd + 1) delay 0) ∧
      (e.select (n.sd + 1) delay = 0 →
        r.ret = RECV_NO_DATA ∧ r.trace = [event.select (n.sd + 1) delay 0] ∧
        r.packet.length = 0 ∧ r.packet.from_ = p.from_) ∧
      (e.select (n.sd + 1) delay = -1 → e.select_errno (n.sd + 1) delay = EINTR →
        r.ret = ARTNET_EOK ∧ r.trace = [event.select (n.sd + 1) delay 0] ∧
        r.packet.length = 0 ∧ r.packet.from_ = p.from_) ∧
      (e.select (n.sd + 1) delay = -1 → e.select_errno (n.sd + 1) delay ≠ EINTR →
        r.ret = ARTNET_ENET ∧ r.trace = [event.select (n.sd + 1) delay 0] ∧
        r.packet.length = 0 ∧ r.packet.from_ = p.from_) ∧
      (e.select (n.sd + 1) delay ≠ 0 → e.select (n.sd + 1) delay ≠ -1 →
        (e.recvfrom n.sd p.data).len < 0 →
        r.ret = ARTNET_ENET ∧ r.packet.length = 0 ∧ r.packet.from_ = p.from_) := by
  have hfd := to_uint32_fd n.sd hsd0 hsd1
  obtain ⟨r, hr⟩ := artnet_net_recv_defined e n p delay hsd0 hsd1
  refine ⟨r, hr, ?_, ?_, ?_, ?_, ?_⟩
  · unfold artnet_net_recv at hr
    simp only [hfd, not_true_eq_false, ↓reduceIte] at hr
    split_ifs at hr <;>
      (simp only [Option.some.injEq] at hr; subst hr; rfl)
  · intro h0
    simp [artnet_net_recv, hfd, h0] at hr
    subst hr
    exact ⟨rfl, rfl, rfl, rfl⟩
  · intro h1 herr
    simp [artnet_net_recv, hfd, h1, herr] at hr
    subst hr
    exact ⟨rfl, rfl, rfl, rfl⟩
  · intro h1 herr
    simp [artnet_net_recv, hfd, h1, herr] at hr
    subst hr
    exact ⟨rfl, rfl, rfl, rfl⟩
  · intro h0 h1 hlen
    simp [artnet_net_recv, hfd, h0, h1, hlen] at hr
    subst hr
    exact ⟨rfl, rfl, rfl⟩

theorem artnet_net_recv_no_data_witness :
    (∃ r, artnet_net_recv (env_of 0 0 0 8 9) node_on packet10 1 = some r ∧
      r.ret = RECV_NO_DATA ∧ r.packet.length = 0) ∧
    (∃ r, artnet_net_recv (env_of 0 (-1) 4 8 9) node_on packet10 1 = some r ∧
      r.ret = ARTNET_EOK ∧ r.packet.length = 0) ∧
    (∃ r, artnet_net_recv (env_of 0 (-1) 9 8 9) node_on packet10 1 = some r ∧
      r.ret = ARTNET_ENET ∧ r.packet.length = 0) ∧
    (∃ r, artnet_net_recv (env_of 0 1 0 (-1) 9) node_on packet10 1 = some r ∧
      r.ret = ARTNET_ENET ∧ r.packet.length = 0) :=
  have a := artnet_net_recv_no_data (env_of 0 0 0 8 9) node_on packet10 1
    (by decide) (by decide)
  have b := artnet_net_recv_no_data (env_of 0 (-1) 4 8 9) node_on packet10 1
    (by decide) (by decide)
  have c := artnet_net_recv_no_data (env_of 0 (-1) 9 8 9) node_on packet10 1
    (by decide) (by decide)
  have d := artnet_net_recv_no_data (env_of 0 1 0 (-1) 9) node_on packet10 1
    (by decide) (by decide)
  ⟨a.elim fun r h => ⟨r, h.1, (h.2.2.1 rfl).1, (h.2.2.1 rfl).2.2.1⟩,
   b.elim fun r h => ⟨r, h.1, (h.2.2.2.1 rfl rfl).1, (h.2.2.2.1 rfl rfl).2.2.1⟩,
   c.elim fun r h =>
     ⟨r, h.1, (h.2.2.2.2.1 rfl (by decide)).1, (h.2.2.2.2.1 rfl (by decide)).2.2.1⟩,
   d.elim fun r h =>
     ⟨r, h.1, (h.2.2.2.2.2 (by decide) (by decide) (by decide)).1,
       (h.2.2.2.2.2 (by decide) (by decide) (by decide)).2.1⟩⟩

/-! ## Theorems: `artnet_net_init` -/

theorem memcpy_mac_self (dst src : bytes_t ARTNET_MAC_SIZE) (h : ARTNET_MAC_SIZE ≤ ARTNET_MAC_SIZE) :
    memcpy_mac dst src h = src := by
  apply Subtype.ext
  have h1 := dst.2
  have h2 := src.2
  show memcpy dst.1 src.1 ARTNET_MAC_SIZE = src.1
  unfold memcpy
  rw [List.take_of_length_le (le_of_eq h2), List.drop_of_length_le (le_of_eq h1)]
  simp

theorem set_addresses_state (n : artnet_node_t) (ift : iface_t) :
    (set_addresses n ift).state.ip_addr = ift.ip_addr ∧
    (set_addresses n ift).state.bcast_addr = ift.bcast_addr ∧
    (set_addresses n ift).state.hw_addr = ift.hw_addr := by
  refine ⟨rfl, rfl, ?_⟩
  exact memcpy_mac_self _ _ (le_refl _)

theorem find_iface_eq_none (a : Nat) (l : List iface_t) (h : ∀ r ∈ l, r.ip_addr ≠ a) :
    find_iface a l = none := by
  induction l with
  | nil => rfl
  | cons x xs ih =>
    have hx : x.ip_addr ≠ a := h x (List.mem_cons_self x xs)
    have hxs : ∀ r ∈ xs, r.ip_addr ≠ a := fun r hr => h r (List.mem_cons_of_mem x hr)
    simp [find_iface, hx, ih hxs]

theorem find_iface_first (a : Nat) (pre : List iface_t) (ift : iface_t) (post : List iface_t)
    (hpre : ∀ r ∈ pre, r.ip_addr ≠ a) (hift : ift.ip_addr = a) :
    find_iface a (pre ++ ift :: post) = some ift := by
  induction pre with
  | nil => simp [find_iface, hift]
  | cons x xs ih =>
    have hx : x.ip_addr ≠ a := hpre x (List.mem_cons_self x xs)
    have hxs : ∀ r ∈ xs, r.ip_addr ≠ a := fun r hr => hpre r (List.mem_cons_of_mem x hr)
    simp [find_iface, hx, ih hxs]

/-- C4: when discovery succeeds with the list `l` and `preferred_ip` parses to an
address that is the `ip_addr` of no record of `l`, `artnet_net_init` returns
`ARTNET_ENET` and the node is exactly as before the call. -/
theorem artnet_net_init_ip_not_listed (e : init_env) (n : artnet_node_t) (ip : String)
    (a : Nat) (g : get_ifaces_r) (l : List iface_t)
    (hg : get_ifaces e.ifaces = some g) (hret : g.ret = 0) (hl : g.ift_head_r = some l)
    (ha : e.inet_aton ip = some a) (hno : ∀ r ∈ l, r.ip_addr ≠ a) :
    ∃ r, artnet_net_init e n (some ip) = some r ∧ r.ret = ARTNET_ENET ∧ r.node = n ∧
      r.node.state = n.state := by
  have hf := find_iface_eq_none a l hno
  simp [artnet_net_init, hg, hret, hl, artnet_net_inet_aton, ha, ARTNET_EOK, hf]

theorem artnet_net_init_ip_not_listed_witness :
    ∃ r, artnet_net_init env_init node_on (some "192.168.1.7") = some r ∧ r.ret = ARTNET_ENET ∧ r.node = node_on ∧
      r.node.state = node_on.state :=
  artnet_net_init_ip_not_listed env_init node_on
    "192.168.1.7" 0xC0A80107 ⟨0, some ifaces_found, []⟩ ifaces_found
    (by decide) (by decide) (by decide) (by decide) (by decide)

/-- C5: address selection depends on the discovered list and on `preferred_ip`
only. When discovery succeeds with the list `l`:
with no `preferred_ip` and `l = ift :: rest`, `artnet_net_init` returns `ARTNET_EOK`
and the node gets `ip_addr`, `bcast_addr` and `hw_addr` of `ift`;
with a `preferred_ip` that parses to `a`, where `ift` is the first record of `l`
whose `ip_addr` is `a`, it returns `ARTNET_EOK` and the node gets the three fields
of `ift`;
and a second call, on any other node and in any other environment that discovers
the same list and converts addresses the same way, returns the same value and, on
`ARTNET_EOK`, sets the same three addresses. -/
theorem artnet_net_init_selection (e : init_env) (n : artnet_node_t) (g : get_ifaces_r)
    (l : List iface_t)
    (hg : get_ifaces e.ifaces = some g) (hret : g.ret = 0) (hl : g.ift_head_r = some l) :
    (∀ ift rest, l = ift :: rest →
      ∃ r, artnet_net_init e n none = some r ∧ r.ret = ARTNET_EOK ∧
        r.node.state.ip_addr = ift.ip_addr ∧ r.node.state.bcast_addr = ift.bcast_addr ∧
        r.node.state.hw_addr = ift.hw_addr) ∧
    (∀ ip a pre ift post, e.inet_aton ip = some a → l = pre ++ ift :: post →
      (∀ x ∈ pre, x.ip_addr ≠ a) → ift.ip_addr = a →
      ∃ r, artnet_net_init e n (some ip) = some r ∧ r.ret = ARTNET_EOK ∧
        r.node.state.ip_addr = ift.ip_addr ∧ r.node.state.bcast_addr = ift.bcast_addr ∧
        r.node.state.hw_addr = ift.hw_addr) ∧
    (∀ (e2 : init_env) (n2 : artnet_node_t) (g2 : get_ifaces_r) (preferred_ip : Option String),
      get_ifaces e2.ifaces = some g2 → g2.ret = 0 → g2.ift_head_r = some l →
      e2.inet_aton = e.inet_aton →
      ∃ r r2, artnet_net_init e n preferred_ip = some r ∧
        artnet_net_init e2 n2 preferred_ip = some r2 ∧ r.ret = r2.ret ∧
        (r.ret = ARTNET_EOK →
          r.node.state.ip_addr = r2.node.state.ip_addr ∧
          r.node.state.bcast_addr = r2.node.state.bcast_addr ∧
          r.node.state.hw_addr = r2.node.state.hw_addr)) := by
  have hnet : ¬ ARTNET_ENET = ARTNET_EOK := by decide
  have harg : ¬ ARTNET_EARG = ARTNET_EOK := by decide
  have hst := fun (m : artnet_node_t) (ift : iface_t) => set_addresses_state m ift
  refine ⟨?_, ?_, ?_⟩
  · intro ift rest hcons
    subst hcons
    refine ⟨⟨ARTNET_EOK, set_addresses n ift, g.freed ++ free_ifaces (ift :: rest)⟩,
      ?_, rfl, hst n ift⟩
    simp [artnet_net_init, hg, hret, hl]
  · intro ip a pre ift post ha hsplit hpre hift
    subst hsplit
    have hf := find_iface_first a pre ift post hpre hift
    refine ⟨⟨ARTNET_EOK, set_addresses n ift, g.freed ++ free_ifaces (pre ++ ift :: post)⟩,
      ?_, rfl, hst n ift⟩
    simp [artnet_net_init, hg, hret, hl, artnet_net_inet_aton, ha, ARTNET_EOK, hf]
  · intro e2 n2 g2 preferred_ip hg2 hret2 hl2 haton
    cases preferred_ip with
    | none =>
      cases l with
      | nil =>
        refine ⟨⟨ARTNET_ENET, n, g.freed ++ free_ifaces []⟩,
          ⟨ARTNET_ENET, n2, g2.freed ++ free_ifaces []⟩, ?_, ?_, rfl, ?_⟩
        · simp [artnet_net_init, hg, hret, hl]
        · simp [artnet_net_init, hg2, hret2, hl2]
        · intro h; exact absurd h hnet
      | cons ift rest =>
        refine ⟨⟨ARTNET_EOK, set_addresses n ift, g.freed ++ free_ifaces (ift :: rest)⟩,
          ⟨ARTNET_EOK, set_addresses n2 ift, g2.freed ++ free_ifaces (ift :: rest)⟩,
          ?_, ?_, rfl, ?_⟩
        · simp [artnet_net_init, hg, hret, hl]
        · simp [artnet_net_init, hg2, hret2, hl2]
        · intro _
          exact ⟨(hst n ift).1.trans (hst n2 ift).1.symm,
            (hst n ift).2.1.trans (hst n2 ift).2.1.symm,
            (hst n ift).2.2.trans (hst n2 ift).2.2.symm⟩
    | some ip =>
      cases ha : e.inet_aton ip with
      | none =>
        refine ⟨⟨ARTNET_EARG, n, g.freed ++ free_ifaces l⟩,
          ⟨ARTNET_EARG, n2, g2.freed ++ free_ifaces l⟩, ?_, ?_, rfl, ?_⟩
        · simp [artnet_net_init, hg, hret, hl, artnet_net_inet_aton, ha, ARTNET_EARG]
        · simp [artnet_net_init, hg2, hret2, hl2, artnet_net_inet_aton, haton, ha, ARTNET_EARG]
        · intro h; exact absurd h harg
      | some a =>
        cases hf : find_iface a l with
        | none =>
          refine ⟨⟨ARTNET_ENET, n, g.freed ++ free_ifaces l⟩,
            ⟨ARTNET_ENET, n2, g2.freed ++ free_ifaces l⟩, ?_, ?_, rfl, ?_⟩
          · simp [artnet_net_init, hg, hret, hl, artnet_net_inet_aton, ha, ARTNET_EOK, hf]
          · simp [artnet_net_init, hg2, hret2, hl2, artnet_net_inet_aton, haton, ha,
              ARTNET_EOK, hf]
          · intro h; exact absurd h hnet
        | some ift =>
          refine ⟨⟨ARTNET_EOK, set_addresses n ift, g.freed ++ free_ifaces l⟩,
            ⟨ARTNET_EOK, set_addresses n2 ift, g2.freed ++ free_ifaces l⟩, ?_, ?_, rfl, ?_⟩
          · simp [artnet_net_init, hg, hret, hl, artnet_net_inet_aton, ha, ARTNET_EOK, hf]
          · simp [artnet_net_init, hg2, hret2, hl2, artnet_net_inet_aton, haton, ha,
              ARTNET_EOK, hf]
          · intro _
            exact ⟨(hst n ift).1.trans (hst n2 ift).1.symm,
              (hst n ift).2.1.trans (hst n2 ift).2.1.symm,
              (hst n ift).2.2.trans (hst n2 ift).2.2.symm⟩

theorem artnet_net_init_selection_witness :
    (∃ r, artnet_net_init env_init node_standby none = some r ∧ r.ret = ARTNET_EOK ∧
      r.node.state.ip_addr = iface_eth0.ip_addr ∧
      r.node.state.bcast_addr = iface_eth0.bcast_addr ∧
      r.node.state.hw_addr = iface_eth0.hw_addr) ∧
    (∃ r, artnet_net_init env_init node_standby (some "10.0.0.2") = some r ∧
      r.ret = ARTNET_EOK ∧
      r.node.state.ip_addr = iface_eth0_1.ip_addr ∧
      r.node.state.bcast_addr = iface_eth0_1.bcast_addr ∧
      r.node.state.hw_addr = iface_eth0_1.hw_addr) :=
  have t := artnet_net_init_selection env_init node_standby ⟨0, some ifaces_found, []⟩
    ifaces_found (by decide) (by decide) (by decide)
  ⟨t.1 iface_eth0 [iface_eth0_1] rfl,
   t.2.1 "10.0.0.2" 0x0A000002 [iface_eth0] iface_eth0_1 [] (by decide) rfl (by decide)
     (by decide)⟩

/-- C8 as stated fails: discovery succeeds with an empty list, `preferred_ip` is the
string `bogus`, which the conversion rejects, and `artnet_net_init` returns
`ARTNET_EARG`, not `ARTNET_ENET`. -/
theorem artnet_net_init_empty_list_counterexample :
    get_ifaces env_init_empty.ifaces = some ⟨ARTNET_EOK, some [], []⟩ ∧
    env_init_empty.inet_aton "bogus" = none ∧
    artnet_net_init env_init_empty node_on (some "bogus") = some ⟨ARTNET_EARG, node_on, []⟩ ∧
    ARTNET_EARG ≠ ARTNET_ENET := by
  decide

/-- C8 (amended): when discovery succeeds with an empty list, `artnet_net_init`
fails and leaves the node as it was, for every `preferred_ip`: with `ARTNET_ENET`
when `preferred_ip` is absent or parses, with `ARTNET_EARG` when it is given and
does not parse. -/
theorem artnet_net_init_empty_list (e : init_env) (n : artnet_node_t)
    (preferred_ip : Option String) (g : get_ifaces_r)
    (hg : get_ifaces e.ifaces = some g) (hret : g.ret = 0) (hl : g.ift_head_r = some []) :
    ∃ r, artnet_net_init e n preferred_ip = some r ∧ r.node = n ∧ r.ret ≠ ARTNET_EOK ∧
      ((preferred_ip = none ∨ ∃ ip a, preferred_ip = some ip ∧ e.inet_aton ip = some a) →
        r.ret = ARTNET_ENET) ∧
      ((∃ ip, preferred_ip = some ip ∧ e.inet_aton ip = none) → r.ret = ARTNET_EARG) := by
  have hnet : ARTNET_ENET ≠ ARTNET_EOK := by decide
  have harg : ARTNET_EARG ≠ ARTNET_EOK := by decide
  cases preferred_ip with
  | none =>
    refine ⟨⟨ARTNET_ENET, n, g.freed ++ free_ifaces []⟩, ?_, rfl, hnet, fun _ => rfl, ?_⟩
    · simp [artnet_net_init, hg, hret, hl]
    · rintro ⟨ip, h, _⟩
      exact absurd h (by simp)
  | some ip =>
    cases ha : e.inet_aton ip with
    | none =>
      refine ⟨⟨ARTNET_EARG, n, g.freed ++ free_ifaces []⟩, ?_, rfl, harg, ?_, fun _ => rfl⟩
      · simp [artnet_net_init, hg, hret, hl, artnet_net_inet_aton, ha, ARTNET_EARG]
      · rintro (h | ⟨ip2, a, h, h2⟩)
        · exact absurd h (by simp)
        · have : ip = ip2 := by simpa using h
          subst this
          rw [ha] at h2
          exact absurd h2 (by simp)
    | some a =>
      refine ⟨⟨ARTNET_ENET, n, g.freed ++ free_ifaces []⟩, ?_, rfl, hnet, fun _ => rfl, ?_⟩
      · simp [artnet_net_init, hg, hret, hl, artnet_net_inet_aton, ha, ARTNET_EOK, find_iface]
      · rintro ⟨ip2, h, h2⟩
        have : ip = ip2 := by simpa using h
        subst this
        rw [ha] at h2
        exact absurd h2 (by simp)

theorem artnet_net_init_empty_list_witness :
    ∃ r, artnet_net_init env_init_empty node_on (some "10.0.0.1") = some r ∧ r.node = node_on ∧
      r.ret ≠ ARTNET_EOK ∧
      ((some "10.0.0.1" = none ∨
          ∃ ip a, some "10.0.0.1" = some ip ∧ env_init_empty.inet_aton ip = some a) →
        r.ret = ARTNET_ENET) ∧
      ((∃ ip, some "10.0.0.1" = some ip ∧ env_init_empty.inet_aton ip = none) →
        r.ret = ARTNET_EARG) :=
  artnet_net_init_empty_list env_init_empty node_on (some "10.0.0.1") ⟨0, some [], []⟩
    (by decide) (by decide) (by decide)

/-! ## Theorems: `artnet_net_start` -/

theorem peer_cycle_congr (h1 h2 : heap_t) (n : Nat)
    (hp : ∀ q, (h1 q).peering = (h2 q).peering) :
    ∀ (peers : List Nat) (cur : Option Nat), peer_cycle h1 n cur peers → peer_cycle h2 n cur peers := by
  intro peers
  induction peers with
  | nil => intro cur hc; exact hc
  | cons p ps ih =>
    intro cur hc
    obtain ⟨h_cur, h_ne, h_rest⟩ := hc
    refine ⟨h_cur, h_ne, ?_⟩
    rw [← hp p]
    exact ih _ h_rest

theorem heap_set_same (h : heap_t) (a : Nat) (v : artnet_node_t) : heap_set h a v a = v := by
  simp [heap_set]

theorem heap_set_other (h : heap_t) (a b : Nat) (v : artnet_node_t) (hne : b ≠ a) :
    heap_set h a v b = h b := by
  simp [heap_set, hne]

theorem propagate_sd_cycle (n : Nat) :
    ∀ (peers : List Nat) (fuel : Nat) (h : heap_t) (cur : Option Nat),
      peer_cycle h n cur peers → peers.length < fuel →
      ∃ h1, propagate_sd fuel h n cur = some (h1, peers) ∧ h1 n = h n ∧
        (∀ q, (h1 q).peering = (h q).peering) ∧
        (∀ q ∈ peers, (h1 q).sd = (h n).sd) ∧
        (∀ q, q ∉ peers → h1 q = h q) := by
  intro peers
  induction peers with
  | nil =>
    intro fuel h cur hc hfuel
    have hcur : cur = some n := hc
    subst hcur
    cases fuel with
    | zero => exact absurd hfuel (by simp)
    | succ k =>
      refine ⟨h, ?_, rfl, fun _ => rfl, ?_, fun _ _ => rfl⟩
      · simp [propagate_sd]
      · intro q hq
        exact absurd hq (List.not_mem_nil q)
  | cons p ps ih =>
    intro fuel h cur hc hfuel
    obtain ⟨h_cur, h_ne, h_rest⟩ := hc
    subst h_cur
    cases fuel with
    | zero => exact absurd hfuel (by simp)
    | succ k =>
      have hk : ps.length < k := by
        simp only [List.length_cons] at hfuel
        omega
      have hpeer : ∀ q, (heap_set h p { h p with sd := (h n).sd } q).peering = (h q).peering := by
        intro q
        by_cases hq : q = p
        · subst hq
          rw [heap_set_same]
        · rw [heap_set_other h p q _ hq]
      have hn1 : heap_set h p { h p with sd := (h n).sd } n = h n :=
        heap_set_other h p n _ (Ne.symm h_ne)
      have hc1 : peer_cycle (heap_set h p { h p with sd := (h n).sd }) n
          (heap_set h p { h p with sd := (h n).sd } p).peering.peer ps := by
        rw [hpeer p]
        exact peer_cycle_congr h _ n (fun q => (hpeer q).symm) ps _ h_rest
      obtain ⟨h1, hrun, hfix, hpeer1, hsd, hrest⟩ := ih k _ _ hc1 hk
      refine ⟨h1, ?_, ?_, ?_, ?_, ?_⟩
      · simp [propagate_sd, h_ne, hrun]
      · rw [hfix, hn1]
      · intro q
        rw [hpeer1 q, hpeer q]
      · intro q hq
        by_cases hqps : q ∈ ps
        · rw [hsd q hqps, hn1]
        · have hqp : q = p := by
            rcases List.mem_cons.mp hq with hq1 | hq1
            · exact hq1
            · exact absurd hq1 hqps
          subst hqp
          rw [hrest q hqps, heap_set_same]
      · intro q hq
        have hqp : q ≠ p := fun hqp => hq (hqp ▸ List.mem_cons_self p ps)
        have hqps : q ∉ ps := fun hqps => hq (List.mem_cons_of_mem p hqps)
        rw [hrest q hqps, heap_set_other h p q _ hqp]

/-- C6: let `n` be a master whose peer relation visits the nodes `peers` (none of
them `n`) and then returns to `n`. If `socket` returns a descriptor `≥ 0` and `bind`
and `setsockopt` on it do not return -1, then `artnet_net_start`, given room for
more than `peers.length` tests of the loop condition, returns `ARTNET_EOK`; `n` and
every peer then hold the descriptor `socket` returned, the loop has made exactly
`peers.length` assignments, one to each peer in order, and no other node is
touched. -/
theorem artnet_net_start_propagates (e : start_env) (fuel : Nat) (h : heap_t) (n : Nat)
    (peers : List Nat)
    (hmaster : (h n).peering.master = TRUE)
    (hcycle : peer_cycle h n (h n).peering.peer peers)
    (hsocket : 0 ≤ e.socket) (hbind : e.bind e.socket ≠ -1)
    (hopt : e.setsockopt e.socket ≠ -1) (hfuel : peers.length < fuel) :
    ∃ r, artnet_net_start e fuel h n = some r ∧ r.ret = ARTNET_EOK ∧
      (r.heap n).sd = e.socket ∧ (∀ p ∈ peers, (r.heap p).sd = e.socket) ∧
      r.assigned = peers ∧ r.assigned.length = peers.length ∧
      (∀ q, q ≠ n → q ∉ peers → r.heap q = h q) := by
  have hn0 : heap_set h n { h n with sd := e.socket } n = { h n with sd := e.socket } :=
    heap_set_same h n _
  have hpeer : ∀ q, (heap_set h n { h n with sd := e.socket } q).peering = (h q).peering := by
    intro q
    by_cases hq : q = n
    · subst hq
      rw [heap_set_same]
    · rw [heap_set_other h n q _ hq]
  have hc0 : peer_cycle (heap_set h n { h n with sd := e.socket }) n
      (heap_set h n { h n with sd := e.socket } n).peering.peer peers := by
    rw [hpeer n]
    exact peer_cycle_congr h _ n (fun q => (hpeer q).symm) peers _ hcycle
  obtain ⟨h1, hrun, hfix, _, hsd, hrest⟩ := propagate_sd_cycle n peers fuel _ _ hc0 hfuel
  have hsd0 : (heap_set h n { h n with sd := e.socket } n).sd = e.socket := by rw [hn0]
  have hneg : ¬ e.socket < 0 := by omega
  refine ⟨⟨ARTNET_EOK, h1, [event.socket, event.bind e.socket, event.setsockopt e.socket],
    peers⟩, ?_, rfl, ?_, ?_, rfl, rfl, ?_⟩
  · simp only [artnet_net_start, hmaster, hsd0, hrun]
    simp [hneg, hbind, hopt]
  · show (h1 n).sd = e.socket
    rw [hfix, hn0]
  · intro p hp
    show (h1 p).sd = e.socket
    rw [hsd p hp, hn0]
  · intro q hqn hqp
    show h1 q = h q
    rw [hrest q hqp, heap_set_other h n q _ hqn]

theorem artnet_net_start_propagates_witness :
    ∃ r, artnet_net_start env_start 3 heap3 0 = some r ∧ r.ret = ARTNET_EOK ∧
      (r.heap 0).sd = 5 ∧ (∀ p ∈ [1, 2], (r.heap p).sd = 5) ∧
      r.assigned = [1, 2] ∧ r.assigned.length = 2 ∧
      (∀ q, q ≠ 0 → q ∉ [1, 2] → r.heap q = heap3 q) :=
  artnet_net_start_propagates env_start 3 heap3 0 [1, 2] (by decide)
    ⟨rfl, by decide, rfl, by decide, rfl⟩ (by decide) (by decide) (by decide) (by decide)

/-! ## Theorems: interface discovery -/

theorem check_iface_record (c : Bool) (x : ifaddrs) (r : iface_t)
    (h : check_iface c x = some (some r)) :
    ifaddrs_usable x ∧ x.ifa_addr.map (fun addr => addr.sin_addr) = some r.ip_addr ∧
      r.if_name = x.ifa_name.take (IFNAME_SIZE - 1) := by
  unfold check_iface at h
  cases hx : x.ifa_addr with
  | none => simp [hx] at h
  | some addr =>
    simp only [hx] at h
    split_ifs at h with h1 h2 h3 h4 h5
    · exact absurd h (by simp)
    · exact absurd h (by simp)
    · exact absurd h (by simp)
    · cases hb : x.ifa_broadaddr with
      | none => simp [hb] at h
      | some b =>
        simp only [hb, Option.some.injEq] at h
        subst h
        exact ⟨⟨h1, by simpa using h2, by simpa [hx] using h3⟩, rfl, rfl⟩
    · simp only [Option.some.injEq] at h
      subst h
      exact ⟨⟨h1, by simpa using h2, by simpa [hx] using h3⟩, rfl, rfl⟩
    · exact absurd h (by simp)

theorem collect_ifaces_sublist (c : Nat → Bool) :
    ∀ (ifa : List ifaddrs) (i : Nat) (acc l : List iface_t),
      collect_ifaces c i ifa acc = some l →
      ∃ (es : List ifaddrs) (l2 : List iface_t), es.Sublist ifa ∧ (∀ x ∈ es, ifaddrs_usable x) ∧ l = acc ++ l2 ∧
        l2.map (fun r => (some r.ip_addr, r.if_name)) =
          es.map (fun x => (x.ifa_addr.map (fun addr => addr.sin_addr),
            x.ifa_name.take (IFNAME_SIZE - 1))) := by
  intro ifa
  induction ifa with
  | nil =>
    intro i acc l h
    simp only [collect_ifaces, Option.some.injEq] at h
    subst h
    exact ⟨[], [], List.Sublist.slnil, fun x hx => absurd hx (List.not_mem_nil x),
      (List.append_nil _).symm, rfl⟩
  | cons x xs ih =>
    intro i acc l h
    unfold collect_ifaces at h
    cases hc : check_iface (c i) x with
    | none => simp [hc] at h
    | some o =>
      cases o with
      | none =>
        simp only [hc] at h
        obtain ⟨es, l2, hsub, hus, hl, hmap⟩ := ih (i + 1) acc l h
        exact ⟨es, l2, List.Sublist.cons x hsub, hus, hl, hmap⟩
      | some r =>
        simp only [hc] at h
        obtain ⟨es, l2, hsub, hus, hl, hmap⟩ := ih (i + 1) (acc ++ [r]) l h
        obtain ⟨hux, hip, hname⟩ := check_iface_record (c i) x r hc
        refine ⟨x :: es, r :: l2, List.Sublist.cons₂ x hsub, ?_, ?_, ?_⟩
        · intro y hy
          rcases List.mem_cons.mp hy with hy1 | hy1
          · exact hy1 ▸ hux
          · exact hus y hy1
        · rw [hl]
          simp
        · simp only [List.map_cons, hmap, hip, hname]

theorem match_hw_keeps (sd : Nat → Bool) (ifa : List ifaddrs) :
    ∀ (l : List iface_t) (j : Nat) (l2 : List iface_t),
      match_hw sd ifa j l = some l2 →
      l2.map (fun r => (some r.ip_addr, r.if_name)) =
        l.map (fun r => (some r.ip_addr, r.if_name)) := by
  intro l
  induction l with
  | nil =>
    intro j l2 h
    simp only [match_hw, Option.some.injEq] at h
    subst h
    rfl
  | cons r rs ih =>
    intro j l2 h
    unfold match_hw at h
    split_ifs at h with hs
    · cases hrest : match_hw sd ifa (j + 1) rs with
      | none => simp [hrest] at h
      | some l3 =>
        simp only [hrest, Option.some.injEq] at h
        subst h
        have hk := ih (j + 1) l3 hrest
        simp only [List.map_cons, hk]
        cases find_hw (strip_alias r.if_name) ifa <;> rfl

theorem fetch_bcast_ip (e : ioctl_env) (x : ifreq) (flags : Nat) (r r2 : iface_t)
    (h : fetch_bcast e x flags r = some r2) : r2.ip_addr = r.ip_addr := by
  unfold fetch_bcast at h
  split_ifs at h
  · cases hb : e.siocgifbrdaddr x.ifr_name with
    | none => simp [hb] at h
    | some b =>
      simp only [hb, Option.some.injEq] at h
      subst h
      rfl
  · simp only [Option.some.injEq] at h
    subst h
    rfl

theorem fetch_hw_ip (e : ioctl_env) (x : ifreq) (flags : Nat) (r r2 : iface_t)
    (h : fetch_hw e x flags r = some r2) : r2.ip_addr = r.ip_addr := by
  unfold fetch_hw at h
  cases hq : e.SIOCGIFHWADDR with
  | none =>
    simp only [hq, Option.some.injEq] at h
    subst h
    rfl
  | some req =>
    simp only [hq] at h
    split_ifs at h
    · cases hb : e.siocgifhwaddr x.ifr_name with
      | none => simp [hb] at h
      | some b =>
        simp only [hb, Option.some.injEq] at h
        subst h
        rfl
    · simp only [Option.some.injEq] at h
      subst h
      rfl

theorem walk_ifreq_sublist (e : ioctl_env) :
    ∀ (ifrs : List ifreq) (i : Nat) (acc l : List iface_t),
      walk_ifreq e i ifrs acc = .ok l →
      ∃ (es : List ifreq) (l2 : List iface_t), es.Sublist ifrs ∧ (∀ x ∈ es, ifreq_usable e x) ∧ l = acc ++ l2 ∧
        l2.map (fun r => r.ip_addr) = es.map (fun x => x.sin_addr) := by
  intro ifrs
  induction ifrs with
  | nil =>
    intro i acc l h
    simp only [walk_ifreq, Except.ok.injEq] at h
    subst h
    exact ⟨[], [], List.Sublist.slnil, fun x hx => absurd hx (List.not_mem_nil x),
      (List.append_nil _).symm, rfl⟩
  | cons x xs ih =>
    intro i acc l h
    have skip : walk_ifreq e (i + 1) xs acc = .ok l →
        ∃ (es : List ifreq) (l2 : List iface_t), es.Sublist (x :: xs) ∧ (∀ y ∈ es, ifreq_usable e y) ∧ l = acc ++ l2 ∧
          l2.map (fun r => r.ip_addr) = es.map (fun y => y.sin_addr) := by
      intro h2
      obtain ⟨es, l2, hsub, hus, hl, hmap⟩ := ih (i + 1) acc l h2
      exact ⟨es, l2, List.Sublist.cons x hsub, hus, hl, hmap⟩
    unfold walk_ifreq at h
    by_cases hfam : x.sa_family = AF_INET
    · simp only [hfam, ↓reduceIte] at h
      cases hfl : e.siocgifflags x.ifr_name with
      | none => simp [hfl] at h
      | some flags =>
        simp only [hfl] at h
        by_cases hup : flags &&& IFF_UP = 0
        · simp only [hup, ↓reduceIte] at h
          exact skip h
        · simp only [hup, ↓reduceIte] at h
          by_cases hlo : flags &&& IFF_LOOPBACK = 0
          · simp only [hlo, ne_eq, not_true_eq_false, ↓reduceIte] at h
            by_cases hca : e.calloc_ok i = true
            · simp only [hca, not_true_eq_false, ↓reduceIte] at h
              cases hb : fetch_bcast e x flags { iface_zero with ip_addr := x.sin_addr } with
              | none => simp [hb] at h
              | some r1 =>
                simp only [hb] at h
                cases hh : fetch_hw e x flags r1 with
                | none => simp [hh] at h
                | some r2 =>
                  simp only [hh] at h
                  obtain ⟨es, l2, hsub, hus, hl, hmap⟩ := ih (i + 1) (acc ++ [r2]) l h
                  have hip : r2.ip_addr = x.sin_addr := by
                    rw [fetch_hw_ip e x flags r1 r2 hh, fetch_bcast_ip e x flags _ r1 hb]
                  refine ⟨x :: es, r2 :: l2, List.Sublist.cons₂ x hsub, ?_, ?_, ?_⟩
                  · intro y hy
                    rcases List.mem_cons.mp hy with hy1 | hy1
                    · subst hy1
                      exact ⟨hfam, flags, hfl, hup, hlo⟩
                    · exact hus y hy1
                  · rw [hl]
                    simp
                  · simp only [List.map_cons, hmap, hip]
            · simp [hca] at h
          · simp only [hlo, ne_eq, not_false_eq_true, ↓reduceIte] at h
            exact skip h
    · simp only [hfam, ↓reduceIte] at h
      exact skip h

/-- C7: in both strategies, the list `l` a successful `get_ifaces` stores comes,
record by record and in the same order, from a sublist `es` of the entries the
operating system reported (the `getifaddrs` list, or the records of the
`SIOCGIFCONF` buffer), and every entry of `es` is up, is not a loopback and has an
`AF_INET` address: each record carries the address (and, with `getifaddrs`, the
name cut to `IFNAME_SIZE - 1` bytes) of its entry. So no down, loopback or
non-IPv4 entry yields a record. -/
theorem get_ifaces_records_usable (w : ifaces_env) (g : get_ifaces_r) (l : List iface_t)
    (hg : get_ifaces w = some g) (hret : g.ret = ARTNET_EOK) (hl : g.ift_head_r = some l) :
    match w with
    | .use_getifaddrs e =>
      ∃ (ifa es : List ifaddrs), e.getifaddrs = some ifa ∧ es.Sublist ifa ∧
        (∀ x ∈ es, x.ifa_flags &&& IFF_UP ≠ 0 ∧ x.ifa_flags &&& IFF_LOOPBACK = 0 ∧
          x.ifa_addr.map (fun addr => addr.sa_family) = some AF_INET) ∧
        l.map (fun r => (some r.ip_addr, r.if_name)) =
          es.map (fun x => (x.ifa_addr.map (fun addr => addr.sin_addr),
            x.ifa_name.take (IFNAME_SIZE - 1)))
    | .use_ioctl e =>
      ∃ (a : ifconf_answer) (es : List ifreq), ifconf_loop e.ifconf 0 = some (.ok a) ∧
        es.Sublist a.ifr ∧
        (∀ x ∈ es, x.sa_family = AF_INET ∧
          ∃ flags, e.siocgifflags x.ifr_name = some flags ∧
            flags &&& IFF_UP ≠ 0 ∧ flags &&& IFF_LOOPBACK = 0) ∧
        l.map (fun r => r.ip_addr) = es.map (fun x => x.sin_addr) := by
  cases w with
  | use_getifaddrs e =>
    show ∃ (ifa es : List ifaddrs), _
    simp only [get_ifaces, get_ifaces_getifaddrs] at hg
    cases hifa : e.getifaddrs with
    | none =>
      simp only [hifa, Option.some.injEq] at hg
      subst hg
      exact absurd hret (by decide)
    | some ifa =>
      simp only [hifa] at hg
      cases hc : collect_ifaces e.calloc_ok 0 ifa [] with
      | none => simp [hc] at hg
      | some l1 =>
        simp only [hc] at hg
        cases hm : match_hw e.strdup_ok ifa 0 l1 with
        | none => simp [hm] at hg
        | some l2 =>
          simp only [hm, Option.some.injEq] at hg
          subst hg
          simp only [Option.some.injEq] at hl
          subst hl
          obtain ⟨es, l3, hsub, hus, hl1, hmap⟩ := collect_ifaces_sublist e.calloc_ok ifa 0 [] l1 hc
          have hk := match_hw_keeps e.strdup_ok ifa l1 0 l2 hm
          rw [List.nil_append] at hl1
          subst hl1
          exact ⟨ifa, es, rfl, hsub, hus, hk.trans hmap⟩
  | use_ioctl e =>
    show ∃ (a : ifconf_answer) (es : List ifreq), _
    simp only [get_ifaces, get_ifaces_ioctl] at hg
    by_cases hs : e.socket < 0
    · simp only [hs, ↓reduceIte, Option.some.injEq] at hg
      subst hg
      exact absurd hret (by decide)
    · simp only [hs, ↓reduceIte] at hg
      cases hloop : ifconf_loop e.ifconf 0 with
      | none => simp [hloop] at hg
      | some res =>
        cases res with
        | error c =>
          simp only [hloop, Option.some.injEq] at hg
          subst hg
          simp at hl
        | ok a =>
          simp only [hloop] at hg
          cases hw : walk_ifreq e 0 a.ifr [] with
          | error c =>
            simp only [hw, Option.some.injEq] at hg
            subst hg
            simp at hl
          | ok l1 =>
            simp only [hw, Option.some.injEq] at hg
            subst hg
            simp only [Option.some.injEq] at hl
            subst hl
            obtain ⟨es, l3, hsub, hus, hl1, hmap⟩ := walk_ifreq_sublist e a.ifr 0 [] l1 hw
            rw [List.nil_append] at hl1
            subst hl1
            exact ⟨a, es, rfl, hsub, hus, hmap⟩

theorem get_ifaces_records_usable_witness :
    (∃ (ifa es : List ifaddrs), env_getifaddrs.getifaddrs = some ifa ∧ es.Sublist ifa ∧
        (∀ x ∈ es, x.ifa_flags &&& IFF_UP ≠ 0 ∧ x.ifa_flags &&& IFF_LOOPBACK = 0 ∧
          x.ifa_addr.map (fun addr => addr.sa_family) = some AF_INET) ∧
        ifaces_found.map (fun r => (some r.ip_addr, r.if_name)) =
          es.map (fun x => (x.ifa_addr.map (fun addr => addr.sin_addr),
            x.ifa_name.take (IFNAME_SIZE - 1)))) ∧
    (∃ (a : ifconf_answer) (es : List ifreq),
        ifconf_loop (env_ioctl fun _ => true).ifconf 0 = some (.ok a) ∧ es.Sublist a.ifr ∧
        (∀ x ∈ es, x.sa_family = AF_INET ∧
          ∃ flags, (env_ioctl fun _ => true).siocgifflags x.ifr_name = some flags ∧
            flags &&& IFF_UP ≠ 0 ∧ flags &&& IFF_LOOPBACK = 0) ∧
        [iface_eth0_ioctl].map (fun r => r.ip_addr) = es.map (fun x => x.sin_addr)) :=
  ⟨get_ifaces_records_usable (.use_getifaddrs env_getifaddrs) ⟨0, some ifaces_found, []⟩
      ifaces_found (by decide) (by decide) (by decide),
   get_ifaces_records_usable (.use_ioctl (env_ioctl fun _ => true))
      ⟨0, some [iface_eth0_ioctl], []⟩ [iface_eth0_ioctl] (by decide) (by decide) (by decide)⟩

theorem walk_ifreq_append (e : ioctl_env) (rest : List ifreq) :
    ∀ (pre : List ifreq) (i : Nat) (acc built : List iface_t),
      walk_ifreq e i pre acc = .ok built →
      walk_ifreq e i (pre ++ rest) acc = walk_ifreq e (i + pre.length) rest built := by
  intro pre
  induction pre with
  | nil =>
    intro i acc built h
    simp only [walk_ifreq, Except.ok.injEq] at h
    subst h
    simp
  | cons x xs ih =>
    intro i acc built h
    have hidx : i + (x :: xs).length = i + 1 + xs.length := by
      simp only [List.length_cons]
      omega
    rw [hidx, List.cons_append]
    have fin : ∀ acc2, walk_ifreq e (i + 1) xs acc2 = .ok built →
        walk_ifreq e (i + 1) (xs ++ rest) acc2 = walk_ifreq e (i + 1 + xs.length) rest built :=
      fun acc2 h2 => ih (i + 1) acc2 built h2
    generalize walk_ifreq e (i + 1 + xs.length) rest built = res at fin ⊢
    unfold walk_ifreq at h ⊢
    by_cases hfam : x.sa_family = AF_INET
    · simp only [hfam, ↓reduceIte] at h ⊢
      cases hfl : e.siocgifflags x.ifr_name with
      | none => simp [hfl] at h
      | some flags =>
        simp only [hfl] at h ⊢
        by_cases hup : flags &&& IFF_UP = 0
        · simp only [hup, ↓reduceIte] at h ⊢
          exact fin acc h
        · simp only [hup, ↓reduceIte] at h ⊢
          by_cases hlo : flags &&& IFF_LOOPBACK = 0
          · simp only [hlo, ne_eq, not_true_eq_false, ↓reduceIte] at h ⊢
            by_cases hca : e.calloc_ok i = true
            · simp only [hca, not_true_eq_false, ↓reduceIte] at h ⊢
              cases hb : fetch_bcast e x flags { iface_zero with ip_addr := x.sin_addr } with
              | none => simp [hb] at h
              | some r1 =>
                simp only [hb] at h ⊢
                cases hh : fetch_hw e x flags r1 with
                | none => simp [hh] at h
                | some r2 =>
                  simp only [hh] at h ⊢
                  exact fin (acc ++ [r2]) h
            · simp [hca] at h
          · simp only [hlo, ne_eq, not_false_eq_true, ↓reduceIte] at h ⊢
            exact fin acc h
    · simp only [hfam, ↓reduceIte] at h ⊢
      exact fin acc h

/-- The `ioctl` strategy does what C9 states: when the buffer loop ends with the
records `pre ++ x :: post`, the walk over `pre` has built the list `built`, `x` is
usable and the `calloc` for it fails, `get_ifaces` returns `ARTNET_EMEM`, stores no
list and hands `built` to `free_ifaces`; `artnet_net_init` returns `ARTNET_EMEM`
and leaves the node as it was. -/
theorem get_ifaces_ioctl_calloc_failure (e : ioctl_env) (a : ifconf_answer)
    (pre : List ifreq) (x : ifreq) (post : List ifreq) (built : List iface_t)
    (hs : 0 ≤ e.socket) (hloop : ifconf_loop e.ifconf 0 = some (.ok a))
    (hsplit : a.ifr = pre ++ x :: post) (hpre : walk_ifreq e 0 pre [] = .ok built)
    (hx : ifreq_usable e x) (hfail : e.calloc_ok pre.length = false) :
    get_ifaces (.use_ioctl e) = some ⟨ARTNET_EMEM, none, built⟩ ∧
    ∀ (aton : String → Option Nat) (n : artnet_node_t) (preferred_ip : Option String),
      artnet_net_init ⟨.use_ioctl e, aton⟩ n preferred_ip = some ⟨ARTNET_EMEM, n, built⟩ := by
  obtain ⟨hfam, flags, hfl, hup, hlo⟩ := hx
  have hneg : ¬ e.socket < 0 := by omega
  have hwalk : walk_ifreq e 0 a.ifr [] = .error (ARTNET_EMEM, built) := by
    rw [hsplit, walk_ifreq_append e (x :: post) pre 0 [] built hpre]
    unfold walk_ifreq
    simp [hfam, hfl, hup, hlo, hfail]
  have hget : get_ifaces (.use_ioctl e) = some ⟨ARTNET_EMEM, none, built⟩ := by
    simp [get_ifaces, get_ifaces_ioctl, hneg, hloop, hwalk, free_ifaces]
  refine ⟨hget, ?_⟩
  intro aton n preferred_ip
  simp [artnet_net_init, hget, ARTNET_EMEM]

theorem get_ifaces_ioctl_calloc_failure_witness :
    get_ifaces (.use_ioctl (env_ioctl fun i => decide (i ≠ 1))) = some ⟨ARTNET_EMEM, none, []⟩ :=
  (get_ifaces_ioctl_calloc_failure (env_ioctl fun i => decide (i ≠ 1))
    ⟨true, 0, 0, 128, ifr_sample⟩ [⟨name_lo, AF_INET, 0x7F000001⟩]
    ⟨name_eth0, AF_INET, 0x0A000001⟩ [⟨name_wlan0, AF_INET, 0xC0A80107⟩, ⟨name_eth0, 10, 0⟩] []
    (by decide) rfl rfl rfl
    ⟨by decide, 0x1043, by decide, by decide, by decide⟩ (by decide)).1

/-- C9 fails in the `getifaddrs` strategy: on a list whose only entry is `eth0`
10.0.0.1 (up, not a loopback, `AF_INET`) with the `calloc` in `check_iface` failing,
`check_iface` returns 0 as for an entry of no interest, `get_ifaces` returns 0 and
stores the empty list, and `artnet_net_init` reports `ARTNET_ENET` ("no interfaces
found"), not `ARTNET_EMEM`. -/
theorem get_ifaces_getifaddrs_calloc_failure :
    check_iface false
      { ifa_name := name_eth0, ifa_flags := 0x1043,
        ifa_addr := some ⟨AF_INET, 0x0A000001, sll_zero⟩,
        ifa_broadaddr := some ⟨AF_INET, 0x0A0000FF, sll_zero⟩ } = some none ∧
    get_ifaces (.use_getifaddrs env_getifaddrs_nomem) = some ⟨ARTNET_EOK, some [], []⟩ ∧
    artnet_net_init ⟨.use_getifaddrs env_getifaddrs_nomem, inet_aton_sample⟩ node_on none
      = some ⟨ARTNET_ENET, node_on, []⟩ ∧
    ARTNET_EOK ≠ ARTNET_EMEM ∧ ARTNET_ENET ≠ ARTNET_EMEM := by
  decide

/-! ## Theorems: byte conversions -/

theorem and_byte_mask_shift (p k : Nat) :
    (p &&& ((2 ^ 8 - 1) <<< k)) >>> k = p / 2 ^ k % 2 ^ 8 := by
  rw [← Nat.shiftRight_eq_div_pow]
  apply Nat.eq_of_testBit_eq
  intro i
  simp only [Nat.testBit_shiftRight, Nat.testBit_and, Nat.testBit_shiftLeft,
    Nat.testBit_two_pow_sub_one, Nat.testBit_mod_two_pow]
  by_cases h : i < 8
  · simp [h]
  · simp [h]

theorem int_to_bytes_values (p : Nat) :
    (p &&& 0x000000FF) % 256 = p % 256 ∧
    ((p &&& 0x0000FF00) >>> 8) % 256 = p / 256 % 256 ∧
    ((p &&& 0x00FF0000) >>> 16) % 256 = p / 65536 % 256 ∧
    ((p &&& 0xFF000000) >>> 24) % 256 = p / 16777216 % 256 := by
  have m0 : ((2 ^ 8 - 1) <<< 0 : Nat) = 0x000000FF := by decide
  have m1 : ((2 ^ 8 - 1) <<< 8 : Nat) = 0x0000FF00 := by decide
  have m2 : ((2 ^ 8 - 1) <<< 16 : Nat) = 0x00FF0000 := by decide
  have m3 : ((2 ^ 8 - 1) <<< 24 : Nat) = 0xFF000000 := by decide
  have h0 := and_byte_mask_shift p 0
  have h1 := and_byte_mask_shift p 8
  have h2 := and_byte_mask_shift p 16
  have h3 := and_byte_mask_shift p 24
  rw [m0, Nat.shiftRight_zero] at h0
  rw [m1] at h1
  rw [m2] at h2
  rw [m3] at h3
  refine ⟨?_, ?_, ?_, ?_⟩
  · rw [h0]; omega
  · rw [h1]; omega
  · rw [h2]; omega
  · rw [h3]; omega

theorem or_of_bytes (b0 b1 b2 b3 : Nat) (h1 : b1 < 256) (h2 : b2 < 256) (h3 : b3 < 256) :
    ((b0 <<< 24 ||| b1 <<< 16) ||| b2 <<< 8) ||| b3
      = b0 * 16777216 + b1 * 65536 + b2 * 256 + b3 := by
  have e1 : b0 <<< 24 ||| b1 <<< 16 = b0 * 16777216 + b1 * 65536 := by
    have hlt : b1 * 2 ^ 16 < 2 ^ 24 := by omega
    calc b0 <<< 24 ||| b1 <<< 16
        = 2 ^ 24 * b0 ||| b1 * 2 ^ 16 := by
          rw [Nat.shiftLeft_eq, Nat.shiftLeft_eq, Nat.mul_comm b0]
      _ = 2 ^ 24 * b0 + b1 * 2 ^ 16 := (Nat.mul_add_lt_is_or hlt b0).symm
      _ = b0 * 16777216 + b1 * 65536 := by omega
  have e2 : (b0 * 16777216 + b1 * 65536) ||| b2 <<< 8
      = b0 * 16777216 + b1 * 65536 + b2 * 256 := by
    have hlt : b2 * 2 ^ 8 < 2 ^ 16 := by omega
    calc (b0 * 16777216 + b1 * 65536) ||| b2 <<< 8
        = 2 ^ 16 * (b0 * 256 + b1) ||| b2 * 2 ^ 8 := by
          rw [Nat.shiftLeft_eq]
          congr 1
          omega
      _ = 2 ^ 16 * (b0 * 256 + b1) + b2 * 2 ^ 8 :=
          (Nat.mul_add_lt_is_or hlt (b0 * 256 + b1)).symm
      _ = b0 * 16777216 + b1 * 65536 + b2 * 256 := by omega
  have e3 : (b0 * 16777216 + b1 * 65536 + b2 * 256) ||| b3
      = b0 * 16777216 + b1 * 65536 + b2 * 256 + b3 := by
    have hlt : b3 < 2 ^ 8 := by omega
    calc (b0 * 16777216 + b1 * 65536 + b2 * 256) ||| b3
        = 2 ^ 8 * (b0 * 65536 + b1 * 256 + b2) ||| b3 := by
          congr 1
          omega
      _ = 2 ^ 8 * (b0 * 65536 + b1 * 256 + b2) + b3 :=
          (Nat.mul_add_lt_is_or hlt (b0 * 65536 + b1 * 256 + b2)).symm
      _ = b0 * 16777216 + b1 * 65536 + b2 * 256 + b3 := by omega
  rw [e1, e2, e3]

theorem list_of_length_four (l : List Nat) (h : l.length = 4) :
    ∃ a b c d, l = [a, b, c, d] := by
  match l, h with
  | [a, b, c, d], _ => exact ⟨a, b, c, d, rfl⟩

theorem int_bits_lt (x : Int) : int_bits x < 4294967296 := by
  unfold int_bits
  omega

theorem to_int32_int_bits (x : Int) (h0 : -2147483648 ≤ x) (h1 : x ≤ 2147483647) :
    to_int32 ((int_bits x : Nat) : Int) = x := by
  unfold to_int32 int_bits
  omega

theorem int_bits_to_int32 (p : Nat) (h : p < 4294967296) :
    int_bits (to_int32 (p : Int)) = p := by
  unfold to_int32 int_bits
  omega

theorem artnet_misc_int_to_bytes_eq (x : Int) (a b c d : Nat) :
    artnet_misc_int_to_bytes x [a, b, c, d]
      = [int_bits x / 16777216 % 256, int_bits x / 65536 % 256, int_bits x / 256 % 256,
         int_bits x % 256] := by
  obtain ⟨v3, v2, v1, v0⟩ := int_to_bytes_values (int_bits x)
  simp only [artnet_misc_int_to_bytes, List.set, v0, v1, v2, v3]

theorem artnet_misc_nbytes_to_32_eq (b0 b1 b2 b3 : Nat)
    (h1 : b1 < 256) (h2 : b2 < 256) (h3 : b3 < 256) :
    artnet_misc_nbytes_to_32 [b0, b1, b2, b3]
      = to_int32 ((b0 * 16777216 + b1 * 65536 + b2 * 256 + b3 : Nat) : Int) := by
  have h := or_of_bytes b0 b1 b2 b3 h1 h2 h3
  simp only [artnet_misc_nbytes_to_32, List.getD_cons_zero, List.getD_cons_succ, h]

/-- C11: for every 32 bit `int` `x` and every array of 4 bytes,
`artnet_misc_int_to_bytes` writes the big endian bytes of `x` (two's complement
word, `bytes[0]` the most significant byte) and `artnet_misc_nbytes_to_32`, taken
modulo 2^32, reads `x` back from them; and for every array `b` of 4 bytes,
`artnet_misc_int_to_bytes` applied to `artnet_misc_nbytes_to_32 b` writes exactly
`b`. -/
theorem artnet_misc_bytes_roundtrip (x : Int) (b buf : List Nat)
    (hx0 : -2147483648 ≤ x) (hx1 : x ≤ 2147483647) (hbuf : buf.length = 4)
    (hb : b.length = 4) (hbyte : ∀ v ∈ b, v < 256) :
    artnet_misc_nbytes_to_32 (artnet_misc_int_to_bytes x buf) = x ∧
    (∀ b0 b1 b2 b3, artnet_misc_int_to_bytes x buf = [b0, b1, b2, b3] →
      b0 < 256 ∧ b1 < 256 ∧ b2 < 256 ∧ b3 < 256 ∧
      int_bits x = b0 * 16777216 + b1 * 65536 + b2 * 256 + b3) ∧
    artnet_misc_int_to_bytes (artnet_misc_nbytes_to_32 b) buf = b := by
  obtain ⟨c0, c1, c2, c3, rfl⟩ := list_of_length_four buf hbuf
  obtain ⟨b0, b1, b2, b3, rfl⟩ := list_of_length_four b hb
  have hp := int_bits_lt x
  have k0 : b0 < 256 := hbyte b0 (by simp)
  have k1 : b1 < 256 := hbyte b1 (by simp)
  have k2 : b2 < 256 := hbyte b2 (by simp)
  have k3 : b3 < 256 := hbyte b3 (by simp)
  refine ⟨?_, ?_, ?_⟩
  · rw [artnet_misc_int_to_bytes_eq,
      artnet_misc_nbytes_to_32_eq _ _ _ _ (Nat.mod_lt _ (by decide)) (Nat.mod_lt _ (by decide))
        (Nat.mod_lt _ (by decide))]
    have hsum : int_bits x / 16777216 % 256 * 16777216 + int_bits x / 65536 % 256 * 65536
        + int_bits x / 256 % 256 * 256 + int_bits x % 256 = int_bits x := by omega
    rw [hsum]
    exact to_int32_int_bits x hx0 hx1
  · intro a0 a1 a2 a3 h
    rw [artnet_misc_int_to_bytes_eq] at h
    simp only [List.cons.injEq, and_true] at h
    obtain ⟨e0, e1, e2, e3⟩ := h
    subst e0 e1 e2 e3
    refine ⟨Nat.mod_lt _ (by decide), Nat.mod_lt _ (by decide), Nat.mod_lt _ (by decide),
      Nat.mod_lt _ (by decide), ?_⟩
    omega
  · rw [artnet_misc_nbytes_to_32_eq b0 b1 b2 b3 k1 k2 k3, artnet_misc_int_to_bytes_eq,
      int_bits_to_int32 _ (by omega)]
    have e0 : (b0 * 16777216 + b1 * 65536 + b2 * 256 + b3) / 16777216 % 256 = b0 := by omega
    have e1 : (b0 * 16777216 + b1 * 65536 + b2 * 256 + b3) / 65536 % 256 = b1 := by omega
    have e2 : (b0 * 16777216 + b1 * 65536 + b2 * 256 + b3) / 256 % 256 = b2 := by omega
    have e3 : (b0 * 16777216 + b1 * 65536 + b2 * 256 + b3) % 256 = b3 := by omega
    rw [e0, e1, e2, e3]

theorem artnet_misc_bytes_roundtrip_witness :
    artnet_misc_nbytes_to_32 (artnet_misc_int_to_bytes (-2) [9, 9, 9, 9]) = -2 ∧
    (∀ b0 b1 b2 b3, artnet_misc_int_to_bytes (-2) [9, 9, 9, 9] = [b0, b1, b2, b3] →
      b0 < 256 ∧ b1 < 256 ∧ b2 < 256 ∧ b3 < 256 ∧
      int_bits (-2) = b0 * 16777216 + b1 * 65536 + b2 * 256 + b3) ∧
    artnet_misc_int_to_bytes (artnet_misc_nbytes_to_32 [0x12, 0x34, 0x56, 0x78]) [9, 9, 9, 9]
      = [0x12, 0x34, 0x56, 0x78] :=
  artnet_misc_bytes_roundtrip (-2) [0x12, 0x34, 0x56, 0x78] [9, 9, 9, 9]
    (by decide) (by decide) (by decide) (by decide) (by decide)

end Artnet
